import Mathlib

/-!
Verification development for the org-table encoder/decoder of
`ligonlibrary/dataframes.py` (`df_to_orgtbl` / `orgtbl_to_df`).

The Python objects are shallowly embedded: a pandas DataFrame becomes a
`DF` (an ordered row index of level tuples, an ordered column list, and a
cell store); cell lookups `df[j][i]` become `Grid.get`, whose `none` result
plays the role of a pandas `KeyError`; missing values (NaN) are the
distinguished `Val.missing`; Python exceptions raised by the encoder are
`Except` errors.  Floats whose decimal forms are exact are embedded as
rationals, and the printf-style float format is a (width, precision) pair.
-/

namespace OrgTbl

/-- A cell value: NaN / a numeric value with exact decimal form / a
non-numeric (string) value, which the float format rejects with a
`TypeError`. -/
inductive Val where
  | missing
  | num (q : ℚ)
  | str (s : String)
deriving DecidableEq, Repr

/-- A row or column key: one string per hierarchy level (singleton for a
plain single-level index). -/
abbrev Key := List String

/-- Is the value a non-numeric (string) cell? -/
def Val.isStr : Val → Bool
  | .str _ => true
  | _ => false

/-- A printf float format `%<width>.<prec>f`, e.g. `%5.3f` is `⟨5, 3⟩`. -/
structure FloatFmt where
  width : Nat
  prec : Nat
deriving DecidableEq, Repr

/-- Concatenate a list of strings. -/
def strJoin : List String → String
  | [] => ""
  | a :: rest => a ++ strJoin rest

/-- `sep.join(l)`. -/
def strIntercalate (sep : String) : List String → String
  | [] => ""
  | [a] => a
  | a :: rest => a ++ sep ++ strIntercalate sep rest

/-- The decimal digit characters. -/
def digitChar : Nat → Char
  | 0 => '0'
  | 1 => '1'
  | 2 => '2'
  | 3 => '3'
  | 4 => '4'
  | 5 => '5'
  | 6 => '6'
  | 7 => '7'
  | 8 => '8'
  | _ + 9 => '9'

/-- The decimal digits of a positive number, most significant first
(fuel-driven; `fuel ≥ n` suffices). -/
def natDigitsAux : Nat → Nat → List Char
  | 0, _ => []
  | fuel + 1, n =>
      if n = 0 then [] else natDigitsAux fuel (n / 10) ++ [digitChar (n % 10)]

/-- Decimal rendering of a natural number. -/
def natToString (n : Nat) : String :=
  if n = 0 then "0" else String.mk (natDigitsAux (n + 1) n)

/-- The absolute value of a rational, written so that it reduces under
kernel evaluation. -/
def ratAbs (q : ℚ) : ℚ := if q < 0 then -q else q

/-- Fixed-point rendering of a rational with `prec` digits after the
point (rounding half away from zero; the inputs exercised here are exact
at the given precision, so the tie-breaking rule is immaterial). -/
def formatFixed (prec : Nat) (q : ℚ) : String :=
  let n : Nat := (2 * q.num.natAbs * 10 ^ prec + q.den) / (2 * q.den)
  let ip := n / 10 ^ prec
  let fr := n % 10 ^ prec
  let frs := natToString fr
  let frs := String.mk (List.replicate (prec - frs.length) '0') ++ frs
  (if q < 0 ∧ n ≠ 0 then "-" else "") ++ natToString ip ++
    (if prec = 0 then "" else "." ++ frs)

/-- Left-pad with spaces to the given width, as `%` does for floats. -/
def padLeft (w : Nat) (s : String) : String :=
  String.mk (List.replicate (w - s.length) ' ') ++ s

/-- Apply a float format to a rational (`float_fmt % x` in the source). -/
def FloatFmt.render (f : FloatFmt) (q : ℚ) : String :=
  padLeft f.width (formatFixed f.prec q)

/-- A pandas-DataFrame-like grid: ordered columns, ordered row index, and
an association list of cell values.  A (column, row) pair inside the
grid's key space but absent from `vals` holds NaN, exactly as a DataFrame
cell always exists (possibly as NaN) at a valid address. -/
structure Grid where
  columns : List Key
  index : List Key
  vals : List ((Key × Key) × Val)
deriving DecidableEq, Repr

/-- `df[j][i]`: `none` models the `KeyError` raised when the column or row
is absent; otherwise the stored value (NaN when no entry is stored). -/
def Grid.get (g : Grid) (j i : Key) : Option Val :=
  if j ∈ g.columns ∧ i ∈ g.index then
    some (((g.vals.find? (fun e => e.1 == (j, i))).map (·.2)).getD .missing)
  else none

/-- The primary table of `df_to_orgtbl`: index level count and names
(`levels`, `names` in the source) plus the cell grid. -/
structure DF where
  levels : Nat
  names : List String
  colLevels : Nat
  grid : Grid
deriving DecidableEq, Repr

/-- The exceptions the encoder can let escape. -/
inductive EncErr where
  | typeError
  | keyError
  | assertionError
  | valueError
deriving DecidableEq, Repr

/-- The `tdf` argument: `None`, the literal `False`, or a grid of
t-statistics. -/
inductive TArg where
  | none
  | false
  | grid (g : Grid)
deriving Repr

/-- Bonus statistics: a grid keyed by row, holding the replacement values
(already strings) for the leading cells of a secondary annotation row. -/
structure Bonus where
  rows : List (Key × List String)
deriving DecidableEq, Repr

/-- `stats.loc[i]` — `none` models the `KeyError` on a missing row. -/
def Bonus.find (b : Bonus) (i : Key) : Option (List String) :=
  (b.rows.find? (fun e => e.1 == i)).map (·.2)

/-- The inner `format_entry` of the source.
The source checks `is_missing(x)` after building the template but
before interpolation, so a NaN cell short-circuits to `| --- ` whatever
the format, stars or delimiter flag; a non-numeric value makes `entry % x`
raise `TypeError`, recovered as the plain string form (dropping parens,
stars and delimiters). -/
def format_entry (x : Val) (stars : String) (se : Bool) (ffmt : FloatFmt)
    (md : Bool) : String :=
  match x with
  | .missing => "| --- "
  | .num q =>
      let core := ffmt.render q ++ stars
      let core := if se then "(" ++ core ++ ")" else core
      if md then "| \\(" ++ core ++ "\\) " else "| " ++ core ++ " "
  | .str s => "| " ++ s ++ " "

/-- An IEEE-flavoured value as produced by pandas division: NaN, ±inf, or
a finite rational. -/
inductive FVal where
  | nan
  | inf
  | ninf
  | fin (q : ℚ)
deriving DecidableEq, Repr

/-- `np.abs`. -/
def FVal.fabs : FVal → FVal
  | .nan => .nan
  | .inf => .inf
  | .ninf => .inf
  | .fin q => .fin (ratAbs q)

/-- `v > c` under IEEE comparison (NaN compares false). -/
def FVal.fgt (v : FVal) (c : ℚ) : Bool :=
  match v with
  | .nan => Bool.false
  | .inf => Bool.true
  | .ninf => Bool.false
  | .fin q => decide (q > c)

/-- The star count of a t-statistic, exactly as the source accumulates it:
`(np.abs(t) > 1.65) + (np.abs(t) > 1.96) + (np.abs(t) > 2.577)`. -/
def starCount (t : FVal) : Nat :=
  (if (t.fabs).fgt (1.65 : ℚ) then 1 else 0) +
  (if (t.fabs).fgt (1.96 : ℚ) then 1 else 0) +
  (if (t.fabs).fgt (2.577 : ℚ) then 1 else 0)

/-- `"^{" + "*" * stars + "}"` for a positive count, else no suffix. -/
def starSuffix (n : Nat) : String :=
  if n > 0 then "^\x7b" ++ String.mk (List.replicate n '*') ++ "\x7d" else ""

/-- Pandas division on cell values (`df / sedf`): NaN if either operand is
NaN or absent; division by zero follows IEEE (±inf, or NaN for 0/0). -/
def fdiv : FVal → FVal → FVal
  | .fin a, .fin b =>
      if b = 0 then (if a = 0 then .nan else if a > 0 then .inf else .ninf)
      else .fin (a / b)
  | _, _ => .nan

/-- A grid of IEEE-flavoured values: the materialised result of
`df[sedf.columns] / sedf`. -/
structure FGrid where
  columns : List Key
  index : List Key
  vals : List ((Key × Key) × FVal)
deriving DecidableEq, Repr

/-- Lookup in a derived grid; `none` models `KeyError`. -/
def FGrid.get (g : FGrid) (j i : Key) : Option FVal :=
  if j ∈ g.columns ∧ i ∈ g.index then
    some (((g.vals.find? (fun e => e.1 == (j, i))).map (·.2)).getD .nan)
  else none

/-- Read a DataFrame cell as an IEEE value for alignment: an absent or NaN
cell is NaN (strings are excluded beforehand, see `deriveT`). -/
def toFVal : Option Val → FVal
  | some (.num q) => .fin q
  | _ => .nan

/-- `tdf = df[sedf.columns] / sedf`: raises `KeyError` if `sedf` has a
column the primary lacks; raises `TypeError` if any aligned cell of either
frame over those columns is non-numeric; otherwise materialises the
pointwise quotient over `sedf.columns × (df.index ∪ sedf.index)`. -/
def deriveT (df : DF) (se : Grid) : Except EncErr FGrid :=
  if ¬ (se.columns.all (fun c => c ∈ df.grid.columns)) then .error .keyError
  else
    let unionIdx := df.grid.index ++ se.index.filter (fun i => i ∉ df.grid.index)
    if se.columns.any (fun c => unionIdx.any (fun i =>
        ((df.grid.get c i).map Val.isStr).getD Bool.false ||
        ((se.get c i).map Val.isStr).getD Bool.false)) then .error .typeError
    else .ok
      { columns := se.columns
        index := unionIdx
        vals := se.columns.flatMap (fun c => unionIdx.map (fun i =>
          ((c, i), fdiv (toFVal (df.grid.get c i)) (toFVal (se.get c i))))) }

/-- The star source the per-cell star block reads from, once the duck-typed
`tdf` argument has been resolved. -/
inductive StarSrc where
  | noStars
  | falseCrash
  | grid (g : Grid)
  | derived (g : FGrid)

/-- The star suffix for one cell.  `noStars` corresponds to `tdf is False`
in the standard-error and confidence-interval branches (no star code runs);
`falseCrash` to `tdf is False` in the t-only branch, where `tdf[j]`
subscripts the literal `False` and raises `TypeError`; a grid lookup miss
is the `except KeyError` giving no suffix; a NaN t-statistic compares
false against every threshold; a non-numeric t-statistic makes `np.abs`
raise `TypeError`. -/
def starsForCell (src : StarSrc) (j i : Key) : Except EncErr String :=
  match src with
  | .noStars => .ok ""
  | .falseCrash => .error .typeError
  | .grid g =>
      match g.get j i with
      | none => .ok ""
      | some (.str _) => .error .typeError
      | some .missing => .ok (starSuffix (starCount .nan))
      | some (.num q) => .ok (starSuffix (starCount (.fin q)))
  | .derived g =>
      match g.get j i with
      | none => .ok ""
      | some v => .ok (starSuffix (starCount v))

/-- `se_linestart`: the leading cells of a secondary annotation row.  With
no bonus stats, `"|" * levels`; otherwise `stats.loc[i]` (a missing row
raises `KeyError`), the assertion `levels >= len(statline)` (its failure is
the fatal shape error), then `" | ".join([""] * (levels - len + 1) +
statline)`. -/
def se_linestart (levels : Nat) (stats : Option Bonus) (i : Key) :
    Except EncErr String :=
  match stats with
  | none => .ok (String.mk (List.replicate levels '|'))
  | some b =>
      match b.find i with
      | none => .error .keyError
      | some statline =>
          if levels ≥ statline.length then
            .ok (strIntercalate " | "
              (List.replicate (levels - statline.length + 1) "" ++ statline))
          else .error .assertionError

/-- The leading index cells of a data row: `"| %s  " % i` for a
single-level index, else one cell per level, printed only when it differs
from the previous row's value at that level. -/
def idxCell (lastidx i : Key) (k : Nat) : String :=
  if lastidx.getD k "" ≠ i.getD k "" then "| " ++ i.getD k "" ++ " "
  else "| "

/-- The whole index prefix of a data row. -/
def idxPrefix (levels : Nat) (lastidx i : Key) : String :=
  if levels = 1 then "| " ++ i.headD "" ++ "  "
  else strJoin ((List.range levels).map (idxCell lastidx i))

/-- One step of the header suppression scan: blank every level whose label
equals the previous column's label at that level (`lastcol` is the
previous column's original tuple, since the source snapshots the column
list with `.copy()` before mutating). -/
def suppressStep (L : Nat) (lastcol j : Key) : Key :=
  (List.range L).map (fun k =>
    if lastcol.getD k "" = j.getD k "" then "" else j.getD k "")

/-- The left-to-right suppression scan over the column tuples. -/
def suppressRun (L : Nat) : Key → List Key → List Key
  | _, [] => []
  | lastcol, j :: rest => suppressStep L lastcol j :: suppressRun L j rest

/-- Header suppression with the source's initial `lastcol = [""] *
collevels`. -/
def suppressCols (L : Nat) (cols : List Key) : List Key :=
  suppressRun L (List.replicate L "") cols

/-- `column_heading`: one header row plus rule for single-level columns,
or one row per column level (suppressed labels) plus rule; the index level
names occupy the leading cells of the last header row only. -/
def column_heading (df : DF) : String :=
  if df.colLevels = 1 then
    "| " ++ strIntercalate " | " df.names ++ " | " ++
      strIntercalate "|   " (df.grid.columns.map (fun c => c.headD "")) ++
      "  |\n|-\n"
  else
    let colhead := suppressCols df.colLevels df.grid.columns
    strJoin ((List.range df.colLevels).map (fun k =>
      (if k < df.colLevels - 1 then
        strJoin (List.replicate df.levels "| ") ++ " | "
      else "| " ++ strIntercalate " | " df.names ++ " | ") ++
      strIntercalate " | " (colhead.map (fun c => c.getD k "")) ++ "  |\n")) ++
    "|-\n"

/-- Concatenate per-column cells, propagating the first exception. -/
def cellsE (cols : List Key) (f : Key → Except EncErr String) :
    Except EncErr String :=
  match cols with
  | [] => .ok ""
  | j :: rest => do
      let c ← f j
      let r ← cellsE rest f
      .ok (c ++ r)

/-- The point-estimate cells of one data row: per column, the star suffix
then `format_entry(df[j][i], stars)`. -/
def pointCellsE (df : DF) (src : StarSrc) (ffmt : FloatFmt) (md : Bool)
    (i : Key) : Except EncErr String :=
  cellsE df.grid.columns (fun j => do
    let st ← starsForCell src j i
    .ok (format_entry ((df.grid.get j i).getD .missing) st Bool.false ffmt md))

/-- One standard-error cell (after the unconditional `s += "  "`): a
missing point estimate gives an empty string, a stored-but-NaN standard
error gives `(---)`, a lookup `KeyError` (on either frame) gives an empty
cell `|  `, and otherwise the error is formatted with `se=True`. -/
def seCell (pt sv : Option Val) (ffmt : FloatFmt) (md : Bool) : String :=
  "  " ++
    match pt with
    | Option.none => "|  "
    | some p =>
        if p = .missing then ""
        else match sv with
          | Option.none => "|  "
          | some s =>
              if s = .missing then "(---)"
              else format_entry s "" Bool.true ffmt md

/-- The standard-error annotation cells of one row. -/
def seCellsRow (df : DF) (se : Grid) (ffmt : FloatFmt) (md : Bool)
    (i : Key) : String :=
  strJoin (df.grid.columns.map (fun j =>
    seCell (df.grid.get j i) (se.get j i) ffmt md))

/-- One confidence-interval cell: a lookup miss on either bound gives an
empty interval, a NaN bound gives `---`, numeric bounds render as
`[lower,upper]`, and a non-numeric bound makes the `%` interpolation raise
`TypeError` (uncaught in the source). -/
def ciCell (lo hi : Option Val) (ffmt : FloatFmt) : Except EncErr String :=
  match lo, hi with
  | some l, some u =>
      if l = .missing ∨ u = .missing then .ok "| ---  "
      else match l, u with
        | .num a, .num b =>
            .ok ("| [" ++ ffmt.render a ++ "," ++ ffmt.render b ++ "]  ")
        | _, _ => .error .typeError
  | _, _ => .ok "|   "

/-- The confidence-interval annotation cells of one row. -/
def ciCellsRow (df : DF) (cip : Grid × Grid) (ffmt : FloatFmt) (i : Key) :
    Except EncErr String :=
  cellsE df.grid.columns (fun j => do
    let c ← ciCell (cip.1.get j i) (cip.2.get j i) ffmt
    .ok ("  " ++ c))

/-- Iterate the rows in index order, threading `lastidx` for the
adjacency-suppressed index prefix, and concatenating each row's body. -/
def rowsFold (levels : Nat) (body : Key → Except EncErr String) :
    Key → List Key → Except EncErr String
  | _, [] => .ok ""
  | lastidx, i :: rest => do
      let b ← body i
      let r ← rowsFold levels body i rest
      .ok (idxPrefix levels lastidx i ++ b ++ r)

/-- A point-estimate row body (t-statistics branch). -/
def tRowBody (df : DF) (src : StarSrc) (ffmt : FloatFmt) (md : Bool)
    (i : Key) : Except EncErr String := do
  let pcs ← pointCellsE df src ffmt md i
  .ok (pcs ++ "|\n")

/-- A point-estimate row followed by its standard-error row. -/
def seRowBody (df : DF) (se : Grid) (src : StarSrc) (ffmt : FloatFmt)
    (md : Bool) (bonus : Option Bonus) (i : Key) : Except EncErr String := do
  let pcs ← pointCellsE df src ffmt md i
  let ls ← se_linestart df.levels bonus i
  .ok (pcs ++ "|\n" ++ ls ++ seCellsRow df se ffmt md i ++ "|\n")

/-- A point-estimate row followed by its confidence-interval row. -/
def ciRowBody (df : DF) (cip : Grid × Grid) (src : StarSrc)
    (ffmt : FloatFmt) (md : Bool) (bonus : Option Bonus) (i : Key) :
    Except EncErr String := do
  let pcs ← pointCellsE df src ffmt md i
  let ls ← se_linestart df.levels bonus i
  let ccs ← ciCellsRow df cip ffmt i
  .ok (pcs ++ "|\n" ++ ls ++ ccs ++ "|\n")

/-- Resolve the star source in the standard-error branch: `tdf is False`
suppresses the star code, an explicit grid is kept (`tdf.shape`
succeeds), and `None` triggers the per-cell derivation
`df[sedf.columns] / sedf`. -/
def resolveSrcSE (df : DF) (t : TArg) (se : Grid) : Except EncErr StarSrc :=
  match t with
  | .false => .ok .noStars
  | .grid g => .ok (.grid g)
  | .none => do
      let fg ← deriveT df se
      .ok (.derived fg)

/-- Resolve the star source in the confidence-interval branch: the
derivation needs `sedf` as well, and a `None` `tdf` without `sedf` stays
`None`, which the star guard (`tdf is not None`) then suppresses. -/
def resolveSrcCI (df : DF) (t : TArg) (se : Option Grid) :
    Except EncErr StarSrc :=
  match t, se with
  | .false, _ => .ok .noStars
  | .grid g, _ => .ok (.grid g)
  | .none, Option.none => .ok .noStars
  | .none, some s => do
      let fg ← deriveT df s
      .ok (.derived fg)

/-- The point-estimate cells of a plain (no-overlay) row. -/
def plainRow (df : DF) (ffmt : FloatFmt) (md : Bool) (i : Key) : String :=
  strJoin (df.grid.columns.map (fun j =>
    format_entry ((df.grid.get j i).getD .missing) "" Bool.false ffmt md)) ++
  "|\n"

/-- The plain data rows, threading the index-prefix state. -/
def plainRowsGo (df : DF) (ffmt : FloatFmt) (md : Bool) :
    Key → List Key → String
  | _, [] => ""
  | lastidx, i :: rest =>
      idxPrefix df.levels lastidx i ++ plainRow df ffmt md i ++
        plainRowsGo df ffmt md i rest

/-- All data rows of the no-overlay branch. -/
def plainRows (df : DF) (ffmt : FloatFmt) (md : Bool) : String :=
  plainRowsGo df ffmt md (List.replicate df.levels "") df.grid.index

/-- `df_to_orgtbl` on a single table: the optional heading, then one of
the four data-row branches selected exactly as the source tests
`tdf is None` / `sedf is None` / `conf_ints is None`. -/
def encodeDF (df : DF) (tdf : TArg) (sedf : Option Grid)
    (conf_ints : Option (Grid × Grid)) (ffmt : FloatFmt)
    (bonus : Option Bonus) (md : Bool) (ph : Bool) : Except EncErr String :=
  let head := if ph then column_heading df else ""
  match tdf, sedf, conf_ints with
  | .none, Option.none, Option.none => .ok (head ++ plainRows df ffmt md)
  | t, Option.none, Option.none =>
      let src := match t with
        | .grid g => StarSrc.grid g
        | _ => StarSrc.falseCrash
      (rowsFold df.levels (tRowBody df src ffmt md)
        (List.replicate df.levels "") df.grid.index).map (head ++ ·)
  | t, some se, Option.none => do
      let src ← resolveSrcSE df t se
      let rows ← rowsFold df.levels (seRowBody df se src ffmt md bonus)
        (List.replicate df.levels "") df.grid.index
      .ok (head ++ rows)
  | t, se?, some cip => do
      let src ← resolveSrcCI df t se?
      let rows ← rowsFold df.levels (ciRowBody df cip src ffmt md bonus)
        (List.replicate df.levels "") df.grid.index
      .ok (head ++ rows)

/-- `np.all(df[0].columns == col0)`: an elementwise numpy comparison that
raises `ValueError` when the two column sequences have different lengths.
Returns whether all labels agree. -/
def colsCompare (a b : List Key) : Except EncErr Bool :=
  if a.length = b.length then .ok (decide (a = b)) else .error .valueError

/-- The stacking (list) entry of `df_to_orgtbl`, specialised to the
overlay arguments the stacking claims exercise (`tdf`, `sedf`,
`conf_ints`, `bonus_stats` all `None`; `mypop` returns `None`, the format
string and the boolean flag unchanged, so those are shared by every
element).  The first element is encoded with the caller's heading flag;
each later element's flag is recomputed from the comparison of its
columns with the previous element's columns, and blocks are joined by a
`|-` rule row. -/
def encodeStack (ffmt : FloatFmt) (md : Bool) :
    List DF → Bool → Except EncErr String
  | [], _ => .ok ""
  | d :: rest, ph => do
      let current ← encodeDF d .none Option.none Option.none ffmt
        Option.none md ph
      match rest with
      | [] => .ok current
      | d2 :: _ => do
          let eq ← colsCompare d2.grid.columns d.grid.columns
          let r ← encodeStack ffmt md rest (!eq)
          .ok (current ++ "|-\n" ++ r)

/-- The same stacking computation with the mutable state of the caller's
list made explicit: `mypop(df, 0)` pops the list in place, and the same
list object flows through the recursion, so the second component is the
state the caller's list is left in when the call returns (or when the
exception escapes). -/
def encodeStackS (ffmt : FloatFmt) (md : Bool) :
    List DF → Bool → Except EncErr String × List DF
  | [], _ => (.ok "", [])
  | d :: rest, ph =>
      match encodeDF d .none Option.none Option.none ffmt Option.none md ph with
      | .error e => (.error e, rest)
      | .ok current =>
          match rest with
          | [] => (.ok current, rest)
          | d2 :: _ =>
              match colsCompare d2.grid.columns d.grid.columns with
              | .error e => (.error e, rest)
              | .ok eq =>
                  match encodeStackS ffmt md rest (!eq) with
                  | (.error e, st) => (.error e, st)
                  | (.ok r, st) => (.ok (current ++ "|-\n" ++ r), st)

/-- The decoded table: column names, data rows (cells kept as text), and
the promoted index, when one was requested. -/
structure PDF where
  cols : List String
  rows : List (List String)
  idx : Option (String × List String)
deriving DecidableEq, Repr

/-- Python's `str()` of a tuple of strings, used by `orgtbl_to_df` for
multi-row headers without a template. -/
def pyTupleStr (l : List String) : String :=
  match l with
  | [x] => "('" ++ x ++ "',)"
  | _ => "(" ++ strIntercalate ", " (l.map (fun s => "'" ++ s ++ "'")) ++ ")"

/-- First position of a name in the column list (`set_index` resolves a
duplicated label to its first occurrence in this embedding; the
specification leaves the duplicate policy open). -/
def idxOf? (nm : String) : List String → Option Nat
  | [] => Option.none
  | c :: rest => if c = nm then some 0 else (idxOf? nm rest).map (· + 1)

/-- `orgtbl_to_df` (the template argument, unused by the claims, is not
modelled): with no header rows the columns are the positional range; with
one header row its cells become the column names; with more the names are
the canonical tuple strings.  A requested index column is moved from the
columns into the row index only when the request is truthy (`if index:`
guards `set_index`, so the empty string is skipped like `None`;
first occurrence wins, a missing name is a `KeyError`). -/
def orgtbl_to_df (table : List (List String)) (col_name_size : Nat)
    (index : Option String) : Except EncErr PDF :=
  if col_name_size = 0 then
    .ok { cols := (List.range (table.headD []).length).map toString
          rows := table
          idx := Option.none }
  else
    let colnames := table.take col_name_size
    let new_colnames :=
      if col_name_size = 1 then table.headD []
      else (List.range (colnames.headD []).length).map (fun c =>
        pyTupleStr (colnames.map (fun r => r.getD c "")))
    let rows := table.drop col_name_size
    match index with
    | Option.none => .ok { cols := new_colnames, rows := rows, idx := Option.none }
    | some nm =>
        if nm = "" then
          .ok { cols := new_colnames, rows := rows, idx := Option.none }
        else
          match idxOf? nm new_colnames with
          | Option.none => .error .keyError
          | some p =>
              .ok { cols := new_colnames.eraseIdx p
                    rows := rows.map (fun r => r.eraseIdx p)
                    idx := some (nm, rows.map (fun r => r.getD p "")) }

/-- Split a character list at every occurrence of `c` (the separators are
consumed; `n` separators yield `n+1` groups). -/
def splitOnChar (c : Char) : List Char → List (List Char)
  | [] => [[]]
  | a :: rest =>
      let r := splitOnChar c rest
      if a = c then [] :: r
      else match r with
        | [] => [[a]]
        | g :: gs => (a :: g) :: gs

/-- The whitespace the tokenizer trims (the encoder only emits spaces). -/
def isSpaceChar (c : Char) : Bool := c = ' '

/-- Strip leading and trailing spaces. -/
def trimChars (l : List Char) : List Char :=
  ((l.dropWhile isSpaceChar).reverse.dropWhile isSpaceChar).reverse

/-- Modelled from the spec: the external org-mode tokenizer feeding
`orgtbl_to_df` splits one pipe-delimited row (`| cell | cell | … |`) at
its pipes, trims each cell, and drops the empty fragments outside the
boundary pipes. -/
def tokenizeLine (l : List Char) : List String :=
  (((splitOnChar '|' l).map (fun cell => String.mk (trimChars cell))).drop 1).dropLast

/-- A header/body rule row `|-…`. -/
def isRuleLine (l : List Char) : Bool :=
  match l with
  | '|' :: '-' :: _ => Bool.true
  | _ => Bool.false

/-- Modelled from the spec: the external tokenizer splits the encoder's
newline-terminated output into rows, drops blank lines and `|-` rule
rows, and tokenizes each remaining row. -/
def tokenize (s : String) : List (List String) :=
  ((splitOnChar '\n' s.toList).filter
    (fun l => !l.isEmpty && !isRuleLine l)).map tokenizeLine

/-- Does `pat` occur as a contiguous run inside `l`? -/
def containsSub (pat : List Char) : List Char → Bool
  | [] => pat.isEmpty
  | c :: rest => pat.isPrefixOf (c :: rest) || containsSub pat rest

/-! ### Shared concrete example data

The running example of the specification: the table `{A:[1.0,2.0],
B:[3.0,4.0]}` with row keys `row1`, `row2`, and overlays aligned to it. -/

/-- The cells of the running example table. -/
def exG : Grid where
  columns := [["A"], ["B"]]
  index := [["row1"], ["row2"]]
  vals := [ ((["A"], ["row1"]), .num 1), ((["A"], ["row2"]), .num 2),
            ((["B"], ["row1"]), .num 3), ((["B"], ["row2"]), .num 4) ]

/-- The running example table (single unnamed index level). -/
def exDF : DF := { levels := 1, names := [""], colLevels := 1, grid := exG }

/-- `0.5` as a normalised rational literal the kernel can evaluate. -/
def half : ℚ := ⟨1, 2, by decide, by decide⟩

/-- The literal equals one half. -/
theorem half_eq : half = 1 / 2 := by
  unfold half; rw [Rat.mk'_eq_divInt, Rat.divInt_eq_div]; norm_num

/-- `2.2` as a normalised rational literal the kernel can evaluate. -/
def tq : ℚ := ⟨11, 5, by decide, by decide⟩

/-- The literal equals eleven fifths. -/
theorem tq_eq : tq = 11 / 5 := by
  unfold tq; rw [Rat.mk'_eq_divInt, Rat.divInt_eq_div]; norm_num

/-- A standard-error overlay: `0.5` everywhere except `(B, row2)`, which
holds NaN. -/
def exSe : Grid where
  columns := [["A"], ["B"]]
  index := [["row1"], ["row2"]]
  vals := [ ((["A"], ["row1"]), .num half), ((["A"], ["row2"]), .num half),
            ((["B"], ["row1"]), .num half) ]

/-- A one-column table with columns `[A]`. -/
def exA : DF where
  levels := 1
  names := [""]
  colLevels := 1
  grid := { columns := [["A"]], index := [["r"]],
            vals := [((["A"], ["r"]), .num 1)] }

/-- A one-column table with columns `[B]` (same column count as `exA`). -/
def exB : DF where
  levels := 1
  names := [""]
  colLevels := 1
  grid := { columns := [["B"]], index := [["r"]],
            vals := [((["B"], ["r"]), .num 2)] }

/-- A second one-column table with the same columns `[A]` as `exA`. -/
def exA2 : DF where
  levels := 1
  names := [""]
  colLevels := 1
  grid := { columns := [["A"]], index := [["r"]],
            vals := [((["A"], ["r"]), .num 7)] }

deriving instance DecidableEq for Except

/-!  ### Theorems  -/

/-- C8: a null-equivalent point-estimate cell renders as exactly the
sentinel `---` (the cell is `| --- `): for every float-format specifier,
both settings of the math-delimiter flag, any star suffix and either
parenthesisation mode, `format_entry` short-circuits before applying any
of them. -/
theorem c8_missing_sentinel (ffmt : FloatFmt) (md : Bool) (stars : String)
    (se : Bool) : format_entry .missing stars se ffmt md = "| --- " := rfl

/-- C10: encoding an empty sequence of TableModels returns the empty
string — no heading, no data rows, no rule rows — and raises no error. -/
theorem c10_empty_stack (ffmt : FloatFmt) (md ph : Bool) :
    encodeStack ffmt md [] ph = .ok "" := rfl

/-- C9 fails on the code: for `{A:[1.0,2.0], B:[3.0,4.0]}` with row keys
`row1`, `row2` and float format `%.1f`, the encoded output does not
contain the claimed literal `| row1 | 1.0 | 3.0 |` — the source emits two
spaces after the row key (`"| %s  " % i`), and with the default math
delimiters the numerals are additionally wrapped — under either delimiter
setting. -/
theorem c9_literal_row_counterexample :
    encodeDF exDF .none Option.none Option.none ⟨0, 1⟩ Option.none
        Bool.false Bool.true
      = .ok "|  | A|   B  |\n|-\n| row1  | 1.0 | 3.0 |\n| row2  | 2.0 | 4.0 |\n"
    ∧ containsSub ("| row1 | 1.0 | 3.0 |".data)
        ("|  | A|   B  |\n|-\n| row1  | 1.0 | 3.0 |\n| row2  | 2.0 | 4.0 |\n".data)
      = Bool.false
    ∧ encodeDF exDF .none Option.none Option.none ⟨0, 1⟩ Option.none
        Bool.true Bool.true
      = .ok "|  | A|   B  |\n|-\n| row1  | \\(1.0\\) | \\(3.0\\) |\n| row2  | \\(2.0\\) | \\(4.0\\) |\n"
    ∧ containsSub ("| row1 | 1.0 | 3.0 |".data)
        ("|  | A|   B  |\n|-\n| row1  | \\(1.0\\) | \\(3.0\\) |\n| row2  | \\(2.0\\) | \\(4.0\\) |\n".data)
      = Bool.false := by
  refine ⟨?_, by decide, ?_, by decide⟩ <;> decide

/-- `bind` over an `ok` value steps to the continuation. -/
theorem okBind {α β γ : Type} (a : α) (f : α → Except γ β) :
    (Except.ok a >>= f) = f a := rfl

/-- Encoding a single table with no overlays never raises: the output is
the optional heading followed by the plain data rows. -/
theorem encodeDF_plain (d : DF) (ffmt : FloatFmt) (md ph : Bool) :
    encodeDF d .none Option.none Option.none ffmt Option.none md ph
      = .ok ((if ph then column_heading d else "") ++ plainRows d ffmt md) :=
  rfl

/-- The heading policy the stacking code implements, as a direct fold:
each element after the first prints a heading exactly when its columns
differ from the immediately preceding element's columns, and blocks are
joined by a `|-` rule row. -/
def stackSpecGo (ffmt : FloatFmt) (md : Bool) : DF → List DF → String
  | _, [] => ""
  | prev, d :: rest =>
      "|-\n" ++
        (if d.grid.columns = prev.grid.columns then "" else column_heading d) ++
        plainRows d ffmt md ++ stackSpecGo ffmt md d rest

/-- The whole stacked document under the previous-element heading policy. -/
def stackSpec (ffmt : FloatFmt) (md : Bool) : List DF → String
  | [] => ""
  | d :: rest => column_heading d ++ plainRows d ffmt md ++ stackSpecGo ffmt md d rest

/-- Adjacent elements have the same number of columns (otherwise the
numpy comparison in the stacking code raises `ValueError`). -/
def adjLenOk : List DF → Bool
  | [] => Bool.true
  | [_] => Bool.true
  | a :: b :: rest =>
      (a.grid.columns.length == b.grid.columns.length) && adjLenOk (b :: rest)

/-- The recursive stacking encoder agrees with the direct fold whenever
adjacent column counts match. -/
theorem encodeStack_spec (ffmt : FloatFmt) (md : Bool) :
    ∀ (d : DF) (rest : List DF) (ph : Bool), adjLenOk (d :: rest) = Bool.true →
      encodeStack ffmt md (d :: rest) ph
        = .ok ((if ph then column_heading d else "") ++ plainRows d ffmt md ++
            stackSpecGo ffmt md d rest)
  | d, [], ph, _ => by
      have h0 : encodeStack ffmt md [d] ph
          = .ok ((if ph then column_heading d else "") ++ plainRows d ffmt md) := rfl
      rw [h0]; simp [stackSpecGo]
  | d, d2 :: rest2, ph, h => by
      have h1 : (d.grid.columns.length == d2.grid.columns.length) = Bool.true
          ∧ adjLenOk (d2 :: rest2) = Bool.true := by
        simpa [adjLenOk, Bool.and_eq_true] using h
      have hlen : d2.grid.columns.length = d.grid.columns.length := by
        have := h1.1; simp only [beq_iff_eq] at this; omega
      have hcc : colsCompare d2.grid.columns d.grid.columns
          = .ok (decide (d2.grid.columns = d.grid.columns)) := by
        unfold colsCompare; rw [if_pos hlen]
      have IH := encodeStack_spec ffmt md d2 rest2
        (!decide (d2.grid.columns = d.grid.columns)) h1.2
      have step : encodeStack ffmt md (d :: d2 :: rest2) ph
          = (colsCompare d2.grid.columns d.grid.columns >>= fun eq =>
             encodeStack ffmt md (d2 :: rest2) (!eq) >>= fun r =>
             pure ((((if ph then column_heading d else "") ++ plainRows d ffmt md)
               ++ "|-\n") ++ r)) := rfl
      rw [step, hcc, okBind, IH, okBind]
      by_cases hdc : d2.grid.columns = d.grid.columns <;>
        simp [stackSpecGo, hdc, String.append_assoc] <;> rfl

/-- The state-threaded stacker computes the same output as the plain one. -/
theorem encodeStackS_fst (ffmt : FloatFmt) (md : Bool) :
    ∀ (dfs : List DF) (ph : Bool),
      (encodeStackS ffmt md dfs ph).1 = encodeStack ffmt md dfs ph
  | [], _ => rfl
  | [_], _ => rfl
  | d :: d2 :: rest2, ph => by
      show (match colsCompare d2.grid.columns d.grid.columns with
            | .error e => (Except.error e, d2 :: rest2)
            | .ok eq =>
                match encodeStackS ffmt md (d2 :: rest2) (!eq) with
                | (.error e, st) => (.error e, st)
                | (.ok r, st) =>
                    (.ok ((((if ph then column_heading d else "") ++
                      plainRows d ffmt md) ++ "|-\n") ++ r), st)).1
          = (colsCompare d2.grid.columns d.grid.columns >>= fun eq =>
             encodeStack ffmt md (d2 :: rest2) (!eq) >>= fun r =>
             pure ((((if ph then column_heading d else "") ++ plainRows d ffmt md)
               ++ "|-\n") ++ r))
      cases hcc : colsCompare d2.grid.columns d.grid.columns with
      | error e => rfl
      | ok eq =>
          have IH : (encodeStackS ffmt md (d2 :: rest2) (!eq)).1
              = encodeStack ffmt md (d2 :: rest2) (!eq) :=
            encodeStackS_fst ffmt md (d2 :: rest2) (!eq)
          dsimp only
          rw [okBind, ← IH]
          cases hss : encodeStackS ffmt md (d2 :: rest2) (!eq) with
          | mk r st => cases r <;> rfl

/-- When the stacked call returns successfully, the caller's list has
been completely consumed (every element popped). -/
theorem encodeStackS_state (ffmt : FloatFmt) (md : Bool) :
    ∀ (dfs : List DF) (ph : Bool) (s : String),
      (encodeStackS ffmt md dfs ph).1 = .ok s →
      (encodeStackS ffmt md dfs ph).2 = []
  | [], _, _, _ => rfl
  | [_], _, _, _ => rfl
  | d :: d2 :: rest2, ph, s, h => by
      revert h
      show (match colsCompare d2.grid.columns d.grid.columns with
            | .error e => (Except.error e, d2 :: rest2)
            | .ok eq =>
                match encodeStackS ffmt md (d2 :: rest2) (!eq) with
                | (.error e, st) => (.error e, st)
                | (.ok r, st) =>
                    (.ok ((((if ph then column_heading d else "") ++
                      plainRows d ffmt md) ++ "|-\n") ++ r), st)).1 = .ok s →
            (match colsCompare d2.grid.columns d.grid.columns with
            | .error e => (Except.error e, d2 :: rest2)
            | .ok eq =>
                match encodeStackS ffmt md (d2 :: rest2) (!eq) with
                | (.error e, st) => (.error e, st)
                | (.ok r, st) =>
                    (.ok ((((if ph then column_heading d else "") ++
                      plainRows d ffmt md) ++ "|-\n") ++ r), st)).2 = []
      cases hcc : colsCompare d2.grid.columns d.grid.columns with
      | error e => intro h; exact absurd h (by simp)
      | ok eq =>
          dsimp only
          cases hss : encodeStackS ffmt md (d2 :: rest2) (!eq) with
          | mk r st =>
              cases r with
              | error e => intro h; exact absurd h (by simp)
              | ok rr =>
                  intro _
                  have h2 := encodeStackS_state ffmt md (d2 :: rest2) (!eq) rr
                    (by rw [hss])
                  rw [hss] at h2; exact h2

/-- The executable absolute value agrees with the library one. -/
theorem ratAbs_eq_abs (q : ℚ) : ratAbs q = |q| := by
  unfold ratAbs
  by_cases h : q < 0
  · rw [if_pos h, abs_of_neg h]
  · rw [if_neg h, abs_of_nonneg (le_of_not_lt h)]

/-- The star suffix of a finite t-statistic as a function of `|t|` against
the three thresholds. -/
theorem starSuffix_starCount (t : ℚ) :
    starSuffix (starCount (.fin t))
      = if |t| ≤ 1.65 then "" else if |t| ≤ 1.96 then "^{*}"
        else if |t| ≤ 2.577 then "^{**}" else "^{***}" := by
  have habs : ratAbs t = |t| := ratAbs_eq_abs t
  simp only [starCount, FVal.fabs, FVal.fgt, habs]
  by_cases h1 : |t| ≤ 1.65
  · have g1 : ¬ ((1.65 : ℚ) < |t|) := not_lt.mpr h1
    have g2 : ¬ ((1.96 : ℚ) < |t|) := not_lt.mpr (le_trans h1 (by norm_num))
    have g3 : ¬ ((2.577 : ℚ) < |t|) := not_lt.mpr (le_trans h1 (by norm_num))
    simp [g1, g2, g3, h1, starSuffix]
  · by_cases h2 : |t| ≤ 1.96
    · have g1 : (1.65 : ℚ) < |t| := lt_of_not_le h1
      have g2 : ¬ ((1.96 : ℚ) < |t|) := not_lt.mpr h2
      have g3 : ¬ ((2.577 : ℚ) < |t|) := not_lt.mpr (le_trans h2 (by norm_num))
      rw [if_neg h1, if_pos h2]
      simp [g1, g2, g3, starSuffix]
    · by_cases h3 : |t| ≤ 2.577
      · have g1 : (1.65 : ℚ) < |t| :=
          lt_of_not_le h1
        have g2 : (1.96 : ℚ) < |t| := lt_of_not_le h2
        have g3 : ¬ ((2.577 : ℚ) < |t|) := not_lt.mpr h3
        rw [if_neg h1, if_neg h2, if_pos h3]
        simp [g1, g2, g3, starSuffix]
      · have g1 : (1.65 : ℚ) < |t| := lt_of_not_le h1
        have g2 : (1.96 : ℚ) < |t| := lt_of_not_le h2
        have g3 : (2.577 : ℚ) < |t| := lt_of_not_le h3
        rw [if_neg h1, if_neg h2, if_neg h3]
        simp [g1, g2, g3, starSuffix]

/-- The materialised cell list of the derived grid hits exactly the
pointwise quotient. -/
theorem find?_product (cols idx : List Key) (f : Key → Key → FVal)
    (j i : Key) (hj : j ∈ cols) (hi : i ∈ idx) :
    ∃ e, (cols.flatMap (fun c => idx.map (fun r => ((c, r), f c r)))).find?
        (fun e => e.1 == (j, i)) = some e ∧ e.2 = f j i := by
  have hmem : ((j, i), f j i)
      ∈ cols.flatMap (fun c => idx.map (fun r => ((c, r), f c r))) := by
    rw [List.mem_flatMap]
    exact ⟨j, hj, by rw [List.mem_map]; exact ⟨i, hi, rfl⟩⟩
  have hsome : ((cols.flatMap (fun c => idx.map (fun r => ((c, r), f c r)))).find?
      (fun e => e.1 == (j, i))).isSome := by
    rw [List.find?_isSome]
    exact ⟨((j, i), f j i), hmem, by simp⟩
  obtain ⟨e, he⟩ := Option.isSome_iff_exists.mp hsome
  refine ⟨e, he, ?_⟩
  have hkey : e.1 = (j, i) := by
    have := List.find?_some he
    simpa using this
  have hememb := List.mem_of_find?_eq_some he
  rw [List.mem_flatMap] at hememb
  obtain ⟨c, _, hcm⟩ := hememb
  rw [List.mem_map] at hcm
  obtain ⟨r, _, hre⟩ := hcm
  rw [← hre] at hkey ⊢
  simp at hkey
  rw [hkey.1, hkey.2]

/-- `deriveT` success determines every derived cell over the standard
error grid's columns and the primary index. -/
theorem deriveT_get (df : DF) (se : Grid) (fg : FGrid)
    (hok : deriveT df se = .ok fg) (j i : Key)
    (hj : j ∈ se.columns) (hi : i ∈ df.grid.index) :
    fg.get j i = some (fdiv (toFVal (df.grid.get j i)) (toFVal (se.get j i))) := by
  unfold deriveT at hok
  by_cases hsub : ¬ (se.columns.all (fun c => c ∈ df.grid.columns)) = Bool.true
  · rw [if_pos hsub] at hok; exact absurd hok (by simp)
  · rw [if_neg hsub] at hok
    by_cases hstr : (se.columns.any (fun c =>
        (df.grid.index ++ se.index.filter (fun i => i ∉ df.grid.index)).any (fun i =>
          ((df.grid.get c i).map Val.isStr).getD Bool.false ||
          ((se.get c i).map Val.isStr).getD Bool.false))) = Bool.true
    · rw [if_pos hstr] at hok; exact absurd hok (by simp)
    · rw [if_neg hstr] at hok
      have hfg : fg = { columns := se.columns
                        index := df.grid.index ++
                          se.index.filter (fun i => i ∉ df.grid.index)
                        vals := se.columns.flatMap (fun c =>
                          (df.grid.index ++
                            se.index.filter (fun i => i ∉ df.grid.index)).map (fun i =>
                          ((c, i), fdiv (toFVal (df.grid.get c i))
                            (toFVal (se.get c i))))) } := by
        injection hok with h; exact h.symm
      subst hfg
      unfold FGrid.get
      rw [if_pos ⟨hj, List.mem_append_left _ hi⟩]
      obtain ⟨e, hfind, hval⟩ := find?_product se.columns
        (df.grid.index ++ se.index.filter (fun i => i ∉ df.grid.index))
        (fun c i => fdiv (toFVal (df.grid.get c i)) (toFVal (se.get c i)))
        j i hj (List.mem_append_left _ hi)
      rw [hfind]
      simp [hval]

/-- Peeling an intercalation into head and separated tail. -/
theorem strIntercalate_cons (sep a : String) (l : List String) :
    strIntercalate sep (a :: l) = a ++ strJoin (l.map (fun x => sep ++ x)) := by
  induction l generalizing a with
  | nil => simp [strIntercalate, strJoin]
  | cons b rest ih =>
      show a ++ sep ++ strIntercalate sep (b :: rest) = _
      rw [ih b]
      simp [strJoin, String.append_assoc]

/-- When every stacked element shares the first element's columns, no
further headings are printed. -/
theorem stackSpecGo_all_eq (ffmt : FloatFmt) (md : Bool) (d0 : DF) :
    ∀ (rest : List DF) (prev : DF), prev.grid.columns = d0.grid.columns →
      rest.all (fun x => x.grid.columns == d0.grid.columns) = Bool.true →
      stackSpecGo ffmt md prev rest
        = strJoin (rest.map (fun x => "|-\n" ++ plainRows x ffmt md)) := by
  intro rest
  induction rest with
  | nil => intro prev _ _; rfl
  | cons x rest ih =>
      intro prev hprev hall
      simp only [List.all_cons, Bool.and_eq_true, beq_iff_eq] at hall
      show "|-\n" ++
          (if x.grid.columns = prev.grid.columns then "" else column_heading x) ++
          plainRows x ffmt md ++ stackSpecGo ffmt md x rest = _
      rw [if_pos (by rw [hall.1, hprev]), ih x hall.1 hall.2]
      simp [strJoin, String.append_assoc]

/-- C3 fails on the code: stacking tables with columns `[A]`, `[B]`, `[A]`
prints a heading for the third table even though its column-key set equals
the first element's — the source compares each element's columns with the
immediately preceding element's, not the first's.  The claimed output
(third heading suppressed) is refuted. -/
theorem c3_stack_heading_counterexample :
    encodeStack ⟨0, 1⟩ Bool.false [exA, exB, exA2] Bool.true
      = .ok (column_heading exA ++ plainRows exA ⟨0, 1⟩ Bool.false ++ "|-\n" ++
             column_heading exB ++ plainRows exB ⟨0, 1⟩ Bool.false ++ "|-\n" ++
             column_heading exA2 ++ plainRows exA2 ⟨0, 1⟩ Bool.false)
    ∧ encodeStack ⟨0, 1⟩ Bool.false [exA, exB, exA2] Bool.true
      ≠ .ok (column_heading exA ++ plainRows exA ⟨0, 1⟩ Bool.false ++ "|-\n" ++
             column_heading exB ++ plainRows exB ⟨0, 1⟩ Bool.false ++ "|-\n" ++
             plainRows exA2 ⟨0, 1⟩ Bool.false) :=
  ⟨by decide, by decide⟩

/-- C3 amended: the first element is encoded with its heading; each later
element's heading is suppressed exactly when its column-key sequence
equals the *immediately preceding* element's (adjacent column counts must
match, or the numpy comparison raises); blocks are joined by `|-` rule
rows.  In particular, stacking tables that all share the first element's
columns yields one heading block, the data blocks, and one rule row
between consecutive blocks. -/
theorem c3_stack_heading_amended (ffmt : FloatFmt) (md : Bool)
    (dfs : List DF) (h : adjLenOk dfs = Bool.true) :
    encodeStack ffmt md dfs Bool.true = .ok (stackSpec ffmt md dfs)
    ∧ (∀ d rest, dfs = d :: rest →
        rest.all (fun x => x.grid.columns == d.grid.columns) = Bool.true →
        encodeStack ffmt md dfs Bool.true
          = .ok (column_heading d ++ strIntercalate "|-\n"
              ((d :: rest).map (fun x => plainRows x ffmt md)))) := by
  cases dfs with
  | nil => exact ⟨rfl, fun d rest h' => nomatch h'⟩
  | cons d rest =>
      have h1 := encodeStack_spec ffmt md d rest Bool.true h
      constructor
      · rw [h1]; simp [stackSpec, String.append_assoc]
      · intro d' rest' heq hall
        injection heq with hd hr
        subst hd; subst hr
        rw [h1, stackSpecGo_all_eq ffmt md d rest d rfl hall]
        simp only [List.map_cons, strIntercalate_cons]
        simp [String.append_assoc, List.map_map, Function.comp_def]

/-- C3 amended, applied: stacking the two `[A]`-column tables gives one
heading and two data blocks joined by one rule row. -/
theorem c3_stack_heading_amended_witness :
    encodeStack ⟨0, 1⟩ Bool.false [exA, exA2] Bool.true
      = .ok (column_heading exA ++ strIntercalate "|-\n"
          ([exA, exA2].map (fun x => plainRows x ⟨0, 1⟩ Bool.false))) :=
  (c3_stack_heading_amended ⟨0, 1⟩ Bool.false [exA, exA2] (by decide)).2
    exA [exA2] rfl (by decide)

/-- C7 fails on the code: the stacking entry pops the caller's list in
place (`mypop(df, 0)`), so after encoding the one-element list the
caller's list is empty, not unchanged. -/
theorem c7_mutation_counterexample :
    (encodeStackS ⟨0, 1⟩ Bool.false [exA] Bool.true).2 = []
    ∧ (encodeStackS ⟨0, 1⟩ Bool.false [exA] Bool.true).2 ≠ [exA] :=
  ⟨rfl, by decide⟩

/-- C7 amended: consuming the caller's sequence does not change the
output — the state-threaded stacker returns the same result as the pure
one — but on every successful call the caller's list of TableModels has
been completely consumed (left empty) rather than left unchanged. -/
theorem c7_mutation_amended (ffmt : FloatFmt) (md ph : Bool)
    (dfs : List DF) :
    (encodeStackS ffmt md dfs ph).1 = encodeStack ffmt md dfs ph
    ∧ (∀ s, encodeStack ffmt md dfs ph = .ok s →
        (encodeStackS ffmt md dfs ph).2 = []) :=
  ⟨encodeStackS_fst ffmt md dfs ph,
   fun s h => encodeStackS_state ffmt md dfs ph s
     (by rw [encodeStackS_fst]; exact h)⟩

/-- C7 amended, applied to a concrete two-element stack. -/
theorem c7_mutation_amended_witness :
    (encodeStackS ⟨0, 1⟩ Bool.false [exA, exA2] Bool.true).1
        = encodeStack ⟨0, 1⟩ Bool.false [exA, exA2] Bool.true
    ∧ (encodeStackS ⟨0, 1⟩ Bool.false [exA, exA2] Bool.true).2 = [] :=
  ⟨(c7_mutation_amended ⟨0, 1⟩ Bool.false Bool.true [exA, exA2]).1,
   (c7_mutation_amended ⟨0, 1⟩ Bool.false Bool.true [exA, exA2]).2
     "|  | A  |\n|-\n| r  | 1.0 |\n|-\n| r  | 7.0 |\n" (by decide)⟩

/-- C9 amended: with the math delimiters disabled, the encoded output of
the example table contains the literal row `| row1  | 1.0 | 3.0 |` (two
spaces after the row key). -/
theorem c9_literal_row_amended :
    encodeDF exDF .none Option.none Option.none ⟨0, 1⟩ Option.none
        Bool.false Bool.true
      = .ok "|  | A|   B  |\n|-\n| row1  | 1.0 | 3.0 |\n| row2  | 2.0 | 4.0 |\n"
    ∧ containsSub ("| row1  | 1.0 | 3.0 |".data)
        ("|  | A|   B  |\n|-\n| row1  | 1.0 | 3.0 |\n| row2  | 2.0 | 4.0 |\n".data)
      = Bool.true := by
  exact ⟨by decide, by decide⟩

/-- An explicit t-statistics overlay with `t = 2.2` at `(A, row1)` (the
other cells hold NaN). -/
def exT : Grid where
  columns := [["A"], ["B"]]
  index := [["row1"], ["row2"]]
  vals := [((["A"], ["row1"]), .num tq)]

/-- C1: the star suffix of a rendered cell is determined by `|t|` against
the thresholds 1.65 / 1.96 / 2.577 — no suffix for `|t| ≤ 1.65`, `^{*}`,
`^{**}`, `^{***}` for the successive bands — where `t` comes from the
explicit t-statistics grid when one is supplied; when only a
standard-error grid is supplied the per-cell `t` is the point estimate
divided by the standard error (for cells where both are numeric and the
error is nonzero); and `tdf=False` resolves to the no-star source, whose
suffix is empty for every cell. -/
theorem c1_star_thresholds :
    (∀ (g : Grid) (j i : Key) (t : ℚ), g.get j i = some (.num t) →
      starsForCell (.grid g) j i
        = .ok (if |t| ≤ 1.65 then "" else if |t| ≤ 1.96 then "^{*}"
            else if |t| ≤ 2.577 then "^{**}" else "^{***}"))
    ∧ (∀ (df : DF) (se : Grid) (fg : FGrid), deriveT df se = .ok fg →
        resolveSrcSE df .none se = .ok (.derived fg)
        ∧ (∀ (j i : Key) (p s0 : ℚ), j ∈ se.columns → i ∈ df.grid.index →
           df.grid.get j i = some (.num p) → se.get j i = some (.num s0) →
           s0 ≠ 0 →
           starsForCell (.derived fg) j i
             = .ok (if |p / s0| ≤ 1.65 then "" else if |p / s0| ≤ 1.96 then "^{*}"
                 else if |p / s0| ≤ 2.577 then "^{**}" else "^{***}")))
    ∧ (∀ (df : DF) (se : Grid), resolveSrcSE df .false se = .ok .noStars)
    ∧ (∀ (j i : Key), starsForCell .noStars j i = .ok "") := by
  refine ⟨?_, ?_, fun _ _ => rfl, fun _ _ => rfl⟩
  · intro g j i t hget
    simp only [starsForCell, hget, starSuffix_starCount]
  · intro df se fg hok
    constructor
    · unfold resolveSrcSE
      rw [hok]; rfl
    · intro j i p s0 hj hi hdf hse hs0
      have hcell := deriveT_get df se fg hok j i hj hi
      rw [hdf, hse] at hcell
      have hq : fdiv (toFVal (some (.num p))) (toFVal (some (.num s0)))
          = .fin (p / s0) := by
        simp [toFVal, fdiv, hs0]
      rw [hq] at hcell
      simp only [starsForCell, hcell, starSuffix_starCount]

/-- C1 applied concretely: an explicit `t = 2.2` yields two stars; a
derived `t = 1.0 / 0.5 = 2.0` yields two stars; `tdf=False` resolves to
the starless source and yields no suffix. -/
theorem c1_star_thresholds_witness :
    starsForCell (.grid exT) ["A"] ["row1"] = .ok "^{**}"
    ∧ (∃ fg, deriveT exDF exSe = .ok fg
        ∧ starsForCell (.derived fg) ["A"] ["row1"] = .ok "^{**}")
    ∧ resolveSrcSE exDF .false exSe = .ok .noStars
    ∧ starsForCell .noStars ["A"] ["row1"] = .ok "" := by
  refine ⟨?_, ?_, c1_star_thresholds.2.2.1 exDF exSe,
    c1_star_thresholds.2.2.2 ["A"] ["row1"]⟩
  · have h := c1_star_thresholds.1 exT ["A"] ["row1"] tq rfl
    rw [h, tq_eq, abs_of_pos (by norm_num)]
    norm_num
  · obtain ⟨fg, hok⟩ : ∃ fg, deriveT exDF exSe = .ok fg := ⟨_, rfl⟩
    have h2 := (c1_star_thresholds.2.1 exDF exSe fg hok).2 ["A"] ["row1"]
      1 half (by decide) (by decide) rfl rfl
      (by rw [half_eq]; norm_num)
    rw [show ((1 : ℚ) / half) = 2 by rw [half_eq]; norm_num] at h2
    refine ⟨fg, hok, ?_⟩
    rw [h2, abs_of_pos (by norm_num)]
    norm_num

/-- Pair each row with its predecessor (seeding the first comparison with
the given initial value, `[""] * levels` in the source). -/
def withPrev (prev : Key) : List Key → List (Key × Key)
  | [] => []
  | i :: rest => (prev, i) :: withPrev i rest

/-- Reading an entry of a mapped range. -/
theorem getD_range_map {α : Type} (f : Nat → α) (L k : Nat) (d : α)
    (h : k < L) : ((List.range L).map f).getD k d = f k := by
  simp [List.getD_eq_getElem?_getD, List.getElem?_map, List.getElem?_range h]

/-- `getD` over a list of blanks is blank. -/
theorem getD_replicate_blank : ∀ (L k : Nat),
    (List.replicate L ("" : String)).getD k "" = ""
  | 0, 0 => rfl
  | 0, _ + 1 => rfl
  | _ + 1, 0 => rfl
  | L + 1, k + 1 => getD_replicate_blank L k

/-- The level-`k` entry of one suppression step. -/
theorem suppressStep_getD (L : Nat) (lastcol j : Key) (k : Nat)
    (hk : k < L) :
    (suppressStep L lastcol j).getD k ""
      = if lastcol.getD k "" = j.getD k "" then "" else j.getD k "" := by
  unfold suppressStep; rw [getD_range_map _ _ _ _ hk]

/-- The first suppressed header tuple compares against the seed. -/
theorem suppressRun_getD_zero (L : Nat) :
    ∀ (cols : List Key) (last : Key), 0 < cols.length →
      (suppressRun L last cols).getD 0 []
        = suppressStep L last (cols.getD 0 [])
  | [], _, h => absurd h (by simp)
  | _ :: _, _, _ => rfl

/-- Every later suppressed header tuple compares against the previous
*original* tuple. -/
theorem suppressRun_getD_succ (L : Nat) :
    ∀ (cols : List Key) (last : Key) (l : Nat), l + 1 < cols.length →
      (suppressRun L last cols).getD (l + 1) []
        = suppressStep L (cols.getD l []) (cols.getD (l + 1) [])
  | [], _, _, h => absurd h (by simp)
  | j :: rest, last, 0, h => by
      cases rest with
      | nil => simp at h
      | cons b r => rfl
  | j :: rest, last, l + 1, h => by
      have ih := suppressRun_getD_succ L rest j l (by simpa using h)
      have e1 : (suppressRun L last (j :: rest)).getD (l + 2) []
          = (suppressRun L j rest).getD (l + 1) [] := rfl
      rw [e1, ih]
      rfl

/-- Entry `l + 1` of `withPrev` is (row `l`, row `l + 1`). -/
theorem withPrev_getD_succ :
    ∀ (rows : List Key) (prev : Key) (l : Nat), l + 1 < rows.length →
      (withPrev prev rows).getD (l + 1) ([], [])
        = (rows.getD l [], rows.getD (l + 1) [])
  | [], _, _, h => absurd h (by simp)
  | i :: rest, prev, 0, h => by
      cases rest with
      | nil => simp at h
      | cons b r => rfl
  | i :: rest, prev, l + 1, h => by
      have ih := withPrev_getD_succ rest i l (by simpa using h)
      have e1 : (withPrev prev (i :: rest)).getD (l + 2) ([], [])
          = (withPrev i rest).getD (l + 1) ([], []) := rfl
      rw [e1, ih]
      rfl

/-- The plain data rows are exactly the per-row renderings, each row
paired with its predecessor. -/
theorem plainRowsGo_eq (df : DF) (ffmt : FloatFmt) (md : Bool) :
    ∀ (rows : List Key) (prev : Key),
      plainRowsGo df ffmt md prev rows
        = strJoin ((withPrev prev rows).map
            (fun p => idxPrefix df.levels p.1 p.2 ++ plainRow df ffmt md p.2))
  | [], _ => rfl
  | i :: rest, prev => by
      show idxPrefix df.levels prev i ++ plainRow df ffmt md i ++
          plainRowsGo df ffmt md i rest = _
      rw [plainRowsGo_eq df ffmt md rest i]
      simp [withPrev, strJoin, String.append_assoc]

/-- C5: adjacency suppression of repeated labels.  (i) In the header scan
a column's level-`k` label is blanked exactly when it equals the
immediately preceding column's label at that level (the first column is
compared against the blank seed, so a first label prints as itself).
(ii) The encoder renders the plain data rows by pairing each row with its
predecessor; (iii) at position `l + 1` that predecessor is row `l`; and
(iv) for a multi-level index the level-`k` leading cell of a data row is
the empty cell `| ` exactly when the label equals the previous row's
label at that level, and `| <label> ` otherwise. -/
theorem c5_label_suppression :
    (∀ (L : Nat) (cols : List Key) (l k : Nat), l < cols.length → k < L →
      ((suppressCols L cols).getD l []).getD k ""
        = if 0 < l ∧ (cols.getD l []).getD k "" = (cols.getD (l - 1) []).getD k ""
          then "" else (cols.getD l []).getD k "")
    ∧ (∀ (df : DF) (ffmt : FloatFmt) (md : Bool),
        plainRows df ffmt md
          = strJoin ((withPrev (List.replicate df.levels "") df.grid.index).map
              (fun p => idxPrefix df.levels p.1 p.2 ++ plainRow df ffmt md p.2)))
    ∧ (∀ (rows : List Key) (prev : Key) (l : Nat), l + 1 < rows.length →
        (withPrev prev rows).getD (l + 1) ([], [])
          = (rows.getD l [], rows.getD (l + 1) []))
    ∧ (∀ (levels : Nat) (prev i : Key) (k : Nat), levels ≠ 1 → k < levels →
        idxPrefix levels prev i
            = strJoin ((List.range levels).map (idxCell prev i))
        ∧ idxCell prev i k
            = if i.getD k "" = prev.getD k "" then "| "
              else "| " ++ i.getD k "" ++ " ") := by
  refine ⟨?_, ?_, withPrev_getD_succ, ?_⟩
  · intro L cols l k hl hk
    unfold suppressCols
    rcases l with _ | m
    · rw [suppressRun_getD_zero L cols (List.replicate L "") hl,
        suppressStep_getD L _ _ k hk, getD_replicate_blank]
      have hR : ¬(0 < 0 ∧ (cols.getD 0 []).getD k ""
          = (cols.getD (0 - 1) []).getD k "") := by simp
      rw [if_neg hR]
      by_cases hz : (cols.getD 0 []).getD k "" = ""
      · rw [if_pos hz.symm]; exact hz.symm
      · rw [if_neg (fun hc => hz hc.symm)]
    · rw [suppressRun_getD_succ L cols (List.replicate L "") m (by omega),
        suppressStep_getD L _ _ k hk]
      by_cases heq : (cols.getD (m + 1) []).getD k ""
          = (cols.getD m []).getD k ""
      · rw [if_pos heq.symm, if_pos ⟨Nat.succ_pos m, heq⟩]
      · rw [if_neg (fun hc => heq hc.symm),
          if_neg (fun hc => heq hc.2)]
  · intro df ffmt md
    exact plainRowsGo_eq df ffmt md df.grid.index (List.replicate df.levels "")
  · intro levels prev i k hlev hk
    constructor
    · unfold idxPrefix
      rw [if_neg hlev]
    · unfold idxCell
      by_cases heq : i.getD k "" = prev.getD k ""
      · rw [if_pos heq, if_neg (by simpa using heq.symm)]
      · rw [if_neg heq, if_pos (fun hc => heq hc.symm)]

/-- C5 applied: in a two-level header the repeated parent label is
blanked; in the data rows row 1 is compared against row 0 and the
repeated group label renders as the empty cell. -/
theorem c5_label_suppression_witness :
    ((suppressCols 2 [["X", "a"], ["X", "b"]]).getD 1 []).getD 0 "" = ""
    ∧ (withPrev ["", ""] [["u", "1"], ["u", "2"]]).getD 1 ([], [])
        = (["u", "1"], ["u", "2"])
    ∧ idxCell ["u", "1"] ["u", "2"] 0 = "| " := by
  refine ⟨?_, ?_, ?_⟩
  · have h := c5_label_suppression.1 2 [["X", "a"], ["X", "b"]] 1 0
      (by decide) (by decide)
    rw [h]; decide
  · exact c5_label_suppression.2.2.1 [["u", "1"], ["u", "2"]] ["", ""] 0
      (by decide)
  · have h := (c5_label_suppression.2.2.2 2 ["u", "1"] ["u", "2"] 0
      (by decide) (by decide)).2
    rw [h]; decide

/-- Per-column cells with never-failing bodies concatenate purely. -/
theorem cellsE_pure (f : Key → String) :
    ∀ (cols : List Key),
      cellsE cols (fun j => .ok (f j)) = .ok (strJoin (cols.map f))
  | [] => rfl
  | j :: rest => by
      show (cellsE rest (fun j => .ok (f j))).bind
          (fun r => Except.ok (f j ++ r)) = _
      rw [cellsE_pure f rest]
      rfl

/-- Row iteration with never-failing bodies concatenates purely, pairing
each row with its predecessor. -/
theorem rowsFold_pure (levels : Nat) (B : Key → String) :
    ∀ (rows : List Key) (prev : Key),
      rowsFold levels (fun i => .ok (B i)) prev rows
        = .ok (strJoin ((withPrev prev rows).map
            (fun p => idxPrefix levels p.1 p.2 ++ B p.2)))
  | [], _ => rfl
  | i :: rest, prev => by
      show (rowsFold levels (fun i => .ok (B i)) i rest).bind
          (fun r => Except.ok (idxPrefix levels prev i ++ B i ++ r)) = _
      rw [rowsFold_pure levels B rest i]
      show Except.ok (idxPrefix levels prev i ++ B i ++ _) = _
      simp [withPrev, strJoin, String.append_assoc]

/-- Point-estimate cells under the no-star source. -/
theorem pointCellsE_noStars (df : DF) (ffmt : FloatFmt) (md : Bool)
    (i : Key) :
    pointCellsE df .noStars ffmt md i
      = .ok (strJoin (df.grid.columns.map (fun j =>
          format_entry ((df.grid.get j i).getD .missing) "" Bool.false
            ffmt md))) := by
  have e : pointCellsE df .noStars ffmt md i
      = cellsE df.grid.columns (fun j =>
          .ok (format_entry ((df.grid.get j i).getD .missing) "" Bool.false
            ffmt md)) := rfl
  rw [e, cellsE_pure]

/-- A standard-error row body with stars suppressed and no bonus stats
never fails and has the fixed shape: point cells, row end, `levels`
pipes, then the annotation cells. -/
theorem seRowBody_noStars (df : DF) (se : Grid) (ffmt : FloatFmt)
    (md : Bool) (i : Key) :
    seRowBody df se .noStars ffmt md Option.none i
      = .ok (strJoin (df.grid.columns.map (fun j =>
            format_entry ((df.grid.get j i).getD .missing) "" Bool.false
              ffmt md)) ++ "|\n"
          ++ String.mk (List.replicate df.levels '|')
          ++ seCellsRow df se ffmt md i ++ "|\n") := by
  have e : seRowBody df se .noStars ffmt md Option.none i
      = (pointCellsE df .noStars ffmt md i).bind (fun pcs =>
          Except.ok (pcs ++ "|\n" ++ String.mk (List.replicate df.levels '|')
            ++ seCellsRow df se ffmt md i ++ "|\n")) := rfl
  rw [e, pointCellsE_noStars]
  rfl

/-- The whole standard-error-mode document with stars suppressed
(`tdf=False`) and no bonus stats: heading, then per row the point-estimate
row and its annotation row. -/
theorem encodeDF_se_false (df : DF) (se : Grid) (ffmt : FloatFmt)
    (md : Bool) :
    encodeDF df .false (some se) Option.none ffmt Option.none md Bool.true
      = .ok (column_heading df ++ strJoin
          ((withPrev (List.replicate df.levels "") df.grid.index).map
            (fun p => idxPrefix df.levels p.1 p.2 ++
              (strJoin (df.grid.columns.map (fun j =>
                  format_entry ((df.grid.get j p.2).getD .missing) ""
                    Bool.false ffmt md)) ++ "|\n"
                ++ String.mk (List.replicate df.levels '|')
                ++ seCellsRow df se ffmt md p.2 ++ "|\n")))) := by
  have e1 : encodeDF df .false (some se) Option.none ffmt Option.none md
        Bool.true
      = (rowsFold df.levels (seRowBody df se .noStars ffmt md Option.none)
          (List.replicate df.levels "") df.grid.index).bind (fun rows =>
          Except.ok (column_heading df ++ rows)) := rfl
  have hb : seRowBody df se .noStars ffmt md Option.none
      = fun i => Except.ok (strJoin (df.grid.columns.map (fun j =>
            format_entry ((df.grid.get j i).getD .missing) "" Bool.false
              ffmt md)) ++ "|\n"
          ++ String.mk (List.replicate df.levels '|')
          ++ seCellsRow df se ffmt md i ++ "|\n") :=
    funext (fun i => seRowBody_noStars df se ffmt md i)
  rw [e1, hb, rowsFold_pure]
  rfl

/-- A table whose only cell holds a missing point estimate. -/
def exMissDF : DF where
  levels := 1
  names := [""]
  colLevels := 1
  grid := { columns := [["A"]], index := [["r"]],
            vals := [((["A"], ["r"]), .missing)] }

/-- A standard-error overlay holding `0.5` for that cell. -/
def exSeC2 : Grid where
  columns := [["A"]]
  index := [["r"]]
  vals := [((["A"], ["r"]), .num half)]

/-- C2 fails on the code: when the point estimate is missing, the
standard-error cell renders as the empty string — no `(---)`, and in fact
no pipe at all, so the annotation row loses a cell — as the full encoded
document for a one-cell table shows (its annotation row is `|  |`). -/
theorem c2_missing_point_counterexample :
    seCell (some .missing) (some (.num half)) ⟨0, 2⟩ Bool.false = "  "
    ∧ seCell (some .missing) (some (.num half)) ⟨0, 2⟩ Bool.false ≠ "  (---)"
    ∧ encodeDF exMissDF .false (some exSeC2) Option.none ⟨0, 2⟩ Option.none
        Bool.false Bool.true
      = .ok "|  | A  |\n|-\n| r  | --- |\n|  |\n" :=
  ⟨rfl, by decide, by decide⟩

/-- C2 amended: in the standard-error annotation row, per cell (after the
unconditional two-space spacer): a missing point estimate renders the
empty string (no cell at all, not `(---)`); a lookup miss on the error
grid renders an empty cell `|  `; an error entry that is present but null
renders `(---)` (with no pipe of its own); and otherwise the error value
is rendered by `format_entry` with `se=True` (parenthesised, inside math
delimiters when enabled).  The encoded document in this mode is exactly
the heading followed, per row, by the point row and an annotation row
composed of these cells. -/
theorem c2_se_row_amended :
    (∀ (pt : Val) (sv : Option Val) (ffmt : FloatFmt) (md : Bool),
      (pt = .missing → seCell (some pt) sv ffmt md = "  ")
      ∧ (pt ≠ .missing → sv = Option.none → seCell (some pt) sv ffmt md = "  |  ")
      ∧ (pt ≠ .missing → sv = some .missing →
          seCell (some pt) sv ffmt md = "  (---)")
      ∧ (∀ v, pt ≠ .missing → sv = some v → v ≠ .missing →
          seCell (some pt) sv ffmt md
            = "  " ++ format_entry v "" Bool.true ffmt md))
    ∧ (∀ (df : DF) (se : Grid) (ffmt : FloatFmt) (md : Bool),
        encodeDF df .false (some se) Option.none ffmt Option.none md Bool.true
          = .ok (column_heading df ++ strJoin
              ((withPrev (List.replicate df.levels "") df.grid.index).map
                (fun p => idxPrefix df.levels p.1 p.2 ++
                  (strJoin (df.grid.columns.map (fun j =>
                      format_entry ((df.grid.get j p.2).getD .missing) ""
                        Bool.false ffmt md)) ++ "|\n"
                    ++ String.mk (List.replicate df.levels '|')
                    ++ seCellsRow df se ffmt md p.2 ++ "|\n"))))) := by
  refine ⟨?_, encodeDF_se_false⟩
  intro pt sv ffmt md
  refine ⟨?_, ?_, ?_, ?_⟩
  · intro h
    subst h
    unfold seCell
    dsimp only
    simp
  · intro hpt hsv
    subst hsv
    unfold seCell
    dsimp only
    rw [if_neg hpt]
    decide
  · intro hpt hsv
    subst hsv
    unfold seCell
    dsimp only
    rw [if_neg hpt, if_pos rfl]
    decide
  · intro v hpt hsv hv
    subst hsv
    unfold seCell
    dsimp only
    rw [if_neg hpt, if_neg hv]

/-- C2 amended, applied cell by cell and to a one-cell document. -/
theorem c2_se_row_amended_witness :
    seCell (some .missing) (some (.num half)) ⟨0, 2⟩ Bool.false = "  "
    ∧ seCell (some (.num 1)) Option.none ⟨0, 2⟩ Bool.false = "  |  "
    ∧ seCell (some (.num 1)) (some .missing) ⟨0, 2⟩ Bool.false = "  (---)"
    ∧ seCell (some (.num 1)) (some (.num half)) ⟨0, 2⟩ Bool.false
        = "  " ++ format_entry (.num half) "" Bool.true ⟨0, 2⟩ Bool.false := by
  refine ⟨(c2_se_row_amended.1 .missing (some (.num half)) ⟨0, 2⟩ Bool.false).1 rfl,
    (c2_se_row_amended.1 (.num 1) Option.none ⟨0, 2⟩ Bool.false).2.1
      (by decide) rfl,
    (c2_se_row_amended.1 (.num 1) (some .missing) ⟨0, 2⟩ Bool.false).2.2.1
      (by decide) rfl,
    (c2_se_row_amended.1 (.num 1) (some (.num half)) ⟨0, 2⟩ Bool.false).2.2.2
      (.num half) (by decide) rfl (by decide)⟩

/-- Did the computation escape with an exception? -/
def isErrB {α : Type} : Except EncErr α → Bool
  | .error _ => Bool.true
  | .ok _ => Bool.false

/-- Every stored cell of the grid is numeric or missing. -/
def gridNumB (g : Grid) : Bool := g.vals.all (fun e => !e.2.isStr)

/-- The precondition of the amended C4: the explicit `tdf` grid and the
standard-error and confidence-interval grids carry no non-numeric cells;
`tdf=False` is only passed together with an annotation grid (alone it
always raises `TypeError`); a standard-error grid only uses columns the
primary has (otherwise the derivation raises `KeyError`); the primary's
cells over the standard-error columns are numeric when the derivation
will divide them; and a bonus-stats grid has an entry for every row
(a missing row raises `KeyError`). -/
def wellFormedArgs (df : DF) (tdf : TArg) (sedf : Option Grid)
    (ci : Option (Grid × Grid)) (bonus : Option Bonus) : Bool :=
  (match tdf with
   | .false => sedf.isSome || ci.isSome
   | .grid g => gridNumB g
   | .none => Bool.true) &&
  (match sedf with
   | some se => se.columns.all (fun c => c ∈ df.grid.columns) && gridNumB se
   | Option.none => Bool.true) &&
  (match tdf, sedf with
   | .none, some se =>
       df.grid.vals.all (fun e => !(e.1.1 ∈ se.columns) || !e.2.isStr)
   | _, _ => Bool.true) &&
  (match ci with
   | some c => gridNumB c.1 && gridNumB c.2
   | Option.none => Bool.true) &&
  (match bonus with
   | some b => df.grid.index.all (fun i => (b.find i).isSome)
   | Option.none => Bool.true)

/-- Does the bonus-stats grid supply more values than index levels at this
row? -/
def shapeAt (levels : Nat) (bonus : Option Bonus) (i : Key) : Bool :=
  match bonus with
  | Option.none => Bool.false
  | some b =>
      match b.find i with
      | some line => decide (levels < line.length)
      | Option.none => Bool.false

/-- The fatal bonus-stats shape condition: an annotation mode is active
and some row's bonus line is longer than the index has levels. -/
def shapeErr (df : DF) (sedf : Option Grid) (ci : Option (Grid × Grid))
    (bonus : Option Bonus) : Bool :=
  (sedf.isSome || ci.isSome) &&
    df.grid.index.any (shapeAt df.levels bonus)

/-- A star source the per-cell star block can always evaluate. -/
def SrcGood : StarSrc → Prop
  | .noStars => True
  | .falseCrash => False
  | .grid g => gridNumB g = Bool.true
  | .derived _ => True

/-- Mapping over a result does not change whether it is an error. -/
theorem isErrB_map {α β : Type} (x : Except EncErr α) (f : α → β) :
    isErrB (x.map f) = isErrB x := by cases x <;> rfl

/-- Binding a never-failing continuation does not change whether the
result is an error. -/
theorem isErrB_bind_ok {α β : Type} (x : Except EncErr α) (g : α → β) :
    isErrB (x.bind (fun a => .ok (g a))) = isErrB x := by cases x <;> rfl

/-- A value read out of a fully numeric grid is never a string. -/
theorem get_not_str (g : Grid) (hg : gridNumB g = Bool.true) (j i : Key)
    (v : Val) (hget : g.get j i = some v) : v.isStr = Bool.false := by
  unfold Grid.get at hget
  by_cases hin : j ∈ g.columns ∧ i ∈ g.index
  · rw [if_pos hin] at hget
    injection hget with hv
    cases hfind : g.vals.find? (fun e => e.1 == (j, i)) with
    | none =>
        rw [hfind] at hv
        simp only [Option.map_none', Option.getD_none] at hv
        rw [← hv]; rfl
    | some e =>
        rw [hfind] at hv
        simp only [Option.map_some', Option.getD_some] at hv
        have hmem := List.mem_of_find?_eq_some hfind
        have h2 := (List.all_eq_true.mp hg) e hmem
        rw [← hv]
        simpa using h2
  · rw [if_neg hin] at hget; cases hget

/-- A value read out of a grid that is numeric over a given column set is
never a string at those columns. -/
theorem get_not_str_over (g : Grid) (cols : List Key)
    (h : g.vals.all (fun e => !(e.1.1 ∈ cols) || !e.2.isStr) = Bool.true)
    (c : Key) (hc : c ∈ cols) (i : Key) (v : Val)
    (hget : g.get c i = some v) : v.isStr = Bool.false := by
  unfold Grid.get at hget
  by_cases hin : c ∈ g.columns ∧ i ∈ g.index
  · rw [if_pos hin] at hget
    injection hget with hv
    cases hfind : g.vals.find? (fun e => e.1 == (c, i)) with
    | none =>
        rw [hfind] at hv
        simp only [Option.map_none', Option.getD_none] at hv
        rw [← hv]; rfl
    | some e =>
        rw [hfind] at hv
        simp only [Option.map_some', Option.getD_some] at hv
        have hmem := List.mem_of_find?_eq_some hfind
        have hkey := List.find?_some hfind
        simp only [beq_iff_eq] at hkey
        have hall := (List.all_eq_true.mp h) e hmem
        have hcc : decide (e.1.1 ∈ cols) = Bool.true := by
          rw [hkey]; exact decide_eq_true hc
        rw [hcc] at hall
        rw [← hv]
        simpa using hall
  · rw [if_neg hin] at hget; cases hget

/-- A good star source never raises at a cell. -/
theorem starsForCell_ok (src : StarSrc) (h : SrcGood src) (j i : Key) :
    ∃ s, starsForCell src j i = .ok s := by
  cases src with
  | noStars => exact ⟨"", rfl⟩
  | falseCrash => exact absurd h (by simp [SrcGood])
  | grid g =>
      cases hget : g.get j i with
      | none => exact ⟨"", by simp [starsForCell, hget]⟩
      | some v =>
          cases v with
          | missing =>
              exact ⟨starSuffix (starCount .nan), by simp [starsForCell, hget]⟩
          | num q =>
              exact ⟨starSuffix (starCount (.fin q)),
                by simp [starsForCell, hget]⟩
          | str s =>
              have := get_not_str g h j i (.str s) hget
              simp [Val.isStr] at this
  | derived fg =>
      cases hget : fg.get j i with
      | none => exact ⟨"", by simp [starsForCell, hget]⟩
      | some v =>
          exact ⟨starSuffix (starCount v), by simp [starsForCell, hget]⟩

/-- Per-column concatenation with never-failing bodies never fails. -/
theorem cellsE_ok_of (f : Key → Except EncErr String) :
    ∀ (cols : List Key), (∀ j ∈ cols, ∃ s, f j = .ok s) →
      ∃ s, cellsE cols f = .ok s
  | [], _ => ⟨"", rfl⟩
  | j :: rest, h => by
      obtain ⟨s, hs⟩ := h j (by simp)
      obtain ⟨r, hr⟩ := cellsE_ok_of f rest (fun x hx => h x (by simp [hx]))
      exact ⟨s ++ r, by
        show (f j).bind _ = _
        rw [hs]
        show (cellsE rest f).bind _ = _
        rw [hr]
        rfl⟩

/-- Point-estimate cells under a good star source never fail. -/
theorem pointCellsE_ok (df : DF) (src : StarSrc) (ffmt : FloatFmt)
    (md : Bool) (i : Key) (h : SrcGood src) :
    ∃ s, pointCellsE df src ffmt md i = .ok s := by
  apply cellsE_ok_of
  intro j _
  obtain ⟨st, hst⟩ := starsForCell_ok src h j i
  refine ⟨format_entry ((df.grid.get j i).getD .missing) st Bool.false
    ffmt md, ?_⟩
  show (starsForCell src j i).bind _ = _
  rw [hst]
  rfl

/-- The error status of the leading annotation cells: with no bonus grid
they never fail; with one whose row exists they fail exactly on the
oversize assertion. -/
theorem se_linestart_isErr (levels : Nat) (bonus : Option Bonus) (i : Key)
    (htot : ∀ b, bonus = some b → (b.find i).isSome = Bool.true) :
    isErrB (se_linestart levels bonus i) = shapeAt levels bonus i := by
  cases bonus with
  | none => rfl
  | some b =>
      cases hfind : b.find i with
      | none =>
          have := htot b rfl
          rw [hfind] at this
          simp at this
      | some line =>
          have e1 : se_linestart levels (some b) i
              = if levels ≥ line.length then
                  Except.ok (strIntercalate " | "
                    (List.replicate (levels - line.length + 1) "" ++ line))
                else Except.error EncErr.assertionError := by
            show (match b.find i with
              | Option.none => Except.error EncErr.keyError
              | some statline =>
                  if levels ≥ statline.length then
                    Except.ok (strIntercalate " | "
                      (List.replicate (levels - statline.length + 1) ""
                        ++ statline))
                  else Except.error EncErr.assertionError) = _
            rw [hfind]
          have e2 : shapeAt levels (some b) i
              = decide (levels < line.length) := by
            show (match b.find i with
              | some line => decide (levels < line.length)
              | Option.none => Bool.false) = _
            rw [hfind]
          rw [e1, e2]
          by_cases hlen : levels ≥ line.length
          · rw [if_pos hlen]
            simp [isErrB, Nat.not_lt.mpr hlen]
          · rw [if_neg hlen]
            simp [isErrB, Nat.lt_of_not_le hlen]

/-- Row iteration fails exactly when some row body fails. -/
theorem rowsFold_isErr (levels : Nat) (body : Key → Except EncErr String) :
    ∀ (rows : List Key) (prev : Key),
      isErrB (rowsFold levels body prev rows)
        = rows.any (fun i => isErrB (body i))
  | [], _ => rfl
  | i :: rest, prev => by
      show isErrB ((body i).bind (fun b =>
        (rowsFold levels body i rest).bind (fun r =>
          Except.ok (idxPrefix levels prev i ++ b ++ r)))) = _
      cases hb : body i with
      | error e =>
          rw [List.any_cons, hb]
          rw [show isErrB (Except.error e : Except EncErr String) = Bool.true
            from rfl, Bool.true_or]
          rfl
      | ok b =>
          have ih := rowsFold_isErr levels body rest i
          have e1 : isErrB ((Except.ok b).bind (fun b =>
              (rowsFold levels body i rest).bind (fun r =>
                Except.ok (idxPrefix levels prev i ++ b ++ r))))
              = isErrB (rowsFold levels body i rest) := by
            cases rowsFold levels body i rest <;> rfl
          rw [e1, ih, List.any_cons, hb]
          rw [show isErrB (Except.ok b) = Bool.false from rfl, Bool.false_or]

/-- `bind` of an `ok` value reduces to the continuation. -/
theorem bindOk {α β : Type} (a : α) (f : α → Except EncErr β) :
    (Except.ok a).bind f = f a := rfl

/-- Pointwise-equal predicates give equal `any`. -/
theorem any_congr {α : Type} (l : List α) (f g : α → Bool)
    (h : ∀ x ∈ l, f x = g x) : l.any f = l.any g := by
  induction l with
  | nil => rfl
  | cons a rest ih =>
      rw [List.any_cons, List.any_cons, h a (by simp),
        ih (fun x hx => h x (by simp [hx]))]

/-- A standard-error row body fails exactly on the bonus-stats line. -/
theorem seRowBody_isErr (df : DF) (se : Grid) (src : StarSrc)
    (ffmt : FloatFmt) (md : Bool) (bonus : Option Bonus) (i : Key)
    (hsrc : SrcGood src)
    (htot : ∀ b, bonus = some b → (b.find i).isSome = Bool.true) :
    isErrB (seRowBody df se src ffmt md bonus i)
      = shapeAt df.levels bonus i := by
  obtain ⟨pcs, hpcs⟩ := pointCellsE_ok df src ffmt md i hsrc
  have e1 : seRowBody df se src ffmt md bonus i
      = (se_linestart df.levels bonus i).bind (fun ls =>
          Except.ok (pcs ++ "|\n" ++ ls ++ seCellsRow df se ffmt md i
            ++ "|\n")) := by
    show (pointCellsE df src ffmt md i).bind _ = _
    rw [hpcs]
    rfl
  rw [e1, isErrB_bind_ok, se_linestart_isErr df.levels bonus i htot]

/-- A confidence-interval cell over non-string bounds never fails. -/
theorem ciCell_ok (lo hi : Option Val) (ffmt : FloatFmt)
    (hlo : ∀ v, lo = some v → v.isStr = Bool.false)
    (hhi : ∀ v, hi = some v → v.isStr = Bool.false) :
    ∃ s, ciCell lo hi ffmt = .ok s := by
  cases lo with
  | none => exact ⟨"|   ", rfl⟩
  | some l =>
      cases hi with
      | none => exact ⟨"|   ", rfl⟩
      | some u =>
          by_cases hm : l = .missing ∨ u = .missing
          · refine ⟨"| ---  ", ?_⟩
            simp [ciCell, hm]
          · have hl := hlo l rfl
            have hu := hhi u rfl
            cases l with
            | missing => exact absurd (Or.inl rfl) hm
            | str s => simp [Val.isStr] at hl
            | num a =>
                cases u with
                | missing => exact absurd (Or.inr rfl) hm
                | str s => simp [Val.isStr] at hu
                | num b =>
                    refine ⟨"| [" ++ ffmt.render a ++ "," ++ ffmt.render b
                      ++ "]  ", ?_⟩
                    simp [ciCell, hm]

/-- The confidence-interval cells of a row over numeric bound grids never
fail. -/
theorem ciCellsRow_ok (df : DF) (cip : Grid × Grid) (ffmt : FloatFmt)
    (i : Key) (h1 : gridNumB cip.1 = Bool.true)
    (h2 : gridNumB cip.2 = Bool.true) :
    ∃ s, ciCellsRow df cip ffmt i = .ok s := by
  apply cellsE_ok_of
  intro j _
  obtain ⟨s, hs⟩ := ciCell_ok (cip.1.get j i) (cip.2.get j i) ffmt
    (fun v hv => get_not_str cip.1 h1 j i v hv)
    (fun v hv => get_not_str cip.2 h2 j i v hv)
  exact ⟨"  " ++ s, by
    show (ciCell (cip.1.get j i) (cip.2.get j i) ffmt).bind _ = _
    rw [hs]
    rfl⟩

/-- A confidence-interval row body fails exactly on the bonus-stats
line. -/
theorem ciRowBody_isErr (df : DF) (cip : Grid × Grid) (src : StarSrc)
    (ffmt : FloatFmt) (md : Bool) (bonus : Option Bonus) (i : Key)
    (hsrc : SrcGood src) (h1 : gridNumB cip.1 = Bool.true)
    (h2 : gridNumB cip.2 = Bool.true)
    (htot : ∀ b, bonus = some b → (b.find i).isSome = Bool.true) :
    isErrB (ciRowBody df cip src ffmt md bonus i)
      = shapeAt df.levels bonus i := by
  obtain ⟨pcs, hpcs⟩ := pointCellsE_ok df src ffmt md i hsrc
  obtain ⟨ccs, hccs⟩ := ciCellsRow_ok df cip ffmt i h1 h2
  have e1 : ciRowBody df cip src ffmt md bonus i
      = (se_linestart df.levels bonus i).bind (fun ls =>
          Except.ok (pcs ++ "|\n" ++ ls ++ ccs ++ "|\n")) := by
    show (pointCellsE df src ffmt md i).bind _ = _
    rw [hpcs, bindOk]
    show (se_linestart df.levels bonus i).bind _ = _
    congr 1
    funext ls
    show (ciCellsRow df cip ffmt i).bind _ = _
    rw [hccs]
    rfl
  rw [e1, isErrB_bind_ok, se_linestart_isErr df.levels bonus i htot]

/-- When the standard-error columns exist in the primary and all involved
cells are non-string, the derivation succeeds. -/
theorem deriveT_ok (df : DF) (se : Grid)
    (hsub : se.columns.all (fun c => c ∈ df.grid.columns) = Bool.true)
    (hdf : df.grid.vals.all (fun e =>
      !(e.1.1 ∈ se.columns) || !e.2.isStr) = Bool.true)
    (hse : gridNumB se = Bool.true) :
    ∃ fg, deriveT df se = .ok fg := by
  unfold deriveT
  rw [if_neg (not_not_intro hsub)]
  rw [if_neg ?hstr]
  · exact ⟨_, rfl⟩
  case hstr =>
    intro hany
    rw [List.any_eq_true] at hany
    obtain ⟨c, hc, hinner⟩ := hany
    rw [List.any_eq_true] at hinner
    obtain ⟨i, _, hcell⟩ := hinner
    rw [Bool.or_eq_true] at hcell
    cases hcell with
    | inl hdfcell =>
        cases hget : df.grid.get c i with
        | none => rw [hget] at hdfcell; simp at hdfcell
        | some v =>
            rw [hget] at hdfcell
            simp only [Option.map_some', Option.getD_some] at hdfcell
            rw [get_not_str_over df.grid se.columns hdf c hc i v hget]
              at hdfcell
            cases hdfcell
    | inr hsecell =>
        cases hget : se.get c i with
        | none => rw [hget] at hsecell; simp at hsecell
        | some v =>
            rw [hget] at hsecell
            simp only [Option.map_some', Option.getD_some] at hsecell
            rw [get_not_str se hse c i v hget] at hsecell
            cases hsecell

/-- Resolving the star source in the standard-error branch succeeds and
yields a good source, under the amended preconditions. -/
theorem resolveSrcSE_good (df : DF) (t : TArg) (se : Grid)
    (hg : ∀ g, t = .grid g → gridNumB g = Bool.true)
    (hder : t = .none →
      se.columns.all (fun c => c ∈ df.grid.columns) = Bool.true
      ∧ df.grid.vals.all (fun e =>
          !(e.1.1 ∈ se.columns) || !e.2.isStr) = Bool.true
      ∧ gridNumB se = Bool.true) :
    ∃ src, resolveSrcSE df t se = .ok src ∧ SrcGood src := by
  cases t with
  | false => exact ⟨.noStars, rfl, trivial⟩
  | grid g => exact ⟨.grid g, rfl, hg g rfl⟩
  | none =>
      obtain ⟨h1, h2, h3⟩ := hder rfl
      obtain ⟨fg, hfg⟩ := deriveT_ok df se h1 h2 h3
      refine ⟨.derived fg, ?_, trivial⟩
      show (deriveT df se).bind _ = _
      rw [hfg]
      rfl

/-- Resolving the star source in the confidence-interval branch succeeds
and yields a good source, under the amended preconditions. -/
theorem resolveSrcCI_good (df : DF) (t : TArg) (se? : Option Grid)
    (hg : ∀ g, t = .grid g → gridNumB g = Bool.true)
    (hder : ∀ se, t = .none → se? = some se →
      se.columns.all (fun c => c ∈ df.grid.columns) = Bool.true
      ∧ df.grid.vals.all (fun e =>
          !(e.1.1 ∈ se.columns) || !e.2.isStr) = Bool.true
      ∧ gridNumB se = Bool.true) :
    ∃ src, resolveSrcCI df t se? = .ok src ∧ SrcGood src := by
  cases t with
  | false => exact ⟨.noStars, by cases se? <;> exact ⟨rfl, trivial⟩⟩
  | grid g => exact ⟨.grid g, by cases se? <;> exact ⟨rfl, hg g rfl⟩⟩
  | none =>
      cases se? with
      | none => exact ⟨.noStars, rfl, trivial⟩
      | some se =>
          obtain ⟨h1, h2, h3⟩ := hder se rfl rfl
          obtain ⟨fg, hfg⟩ := deriveT_ok df se h1 h2 h3
          refine ⟨.derived fg, ?_, trivial⟩
          show (deriveT df se).bind _ = _
          rw [hfg]
          rfl

/-- A t-statistics overlay holding a non-numeric cell. -/
def exTBad : Grid where
  columns := [["A"]]
  index := [["row1"]]
  vals := [((["A"], ["row1"]), .str "x")]

/-- A bonus-stats grid supplying two values for a one-level index. -/
def exBonusBig : Bonus :=
  ⟨[(["row1"], ["a", "b"]), (["row2"], ["a"])]⟩

/-- Error status of the whole standard-error branch. -/
theorem encodeDF_se_isErr (df : DF) (t : TArg) (se : Grid)
    (ffmt : FloatFmt) (md : Bool) (bonus : Option Bonus) (ph : Bool)
    (hsrc : ∃ src, resolveSrcSE df t se = .ok src ∧ SrcGood src)
    (htot : ∀ b, bonus = some b → ∀ i ∈ df.grid.index,
      (b.find i).isSome = Bool.true) :
    isErrB (encodeDF df t (some se) Option.none ffmt bonus md ph)
      = df.grid.index.any (shapeAt df.levels bonus) := by
  obtain ⟨src, hres, hgood⟩ := hsrc
  have e1 : encodeDF df t (some se) Option.none ffmt bonus md ph
      = (resolveSrcSE df t se).bind (fun src =>
          (rowsFold df.levels (seRowBody df se src ffmt md bonus)
            (List.replicate df.levels "") df.grid.index).bind (fun rows =>
            Except.ok ((if ph then column_heading df else "") ++ rows))) := by
    cases t <;> rfl
  rw [e1, hres, bindOk, isErrB_bind_ok, rowsFold_isErr]
  exact any_congr _ _ _ (fun i hi =>
    seRowBody_isErr df se src ffmt md bonus i hgood
      (fun b hb => htot b hb i hi))

/-- Error status of the whole confidence-interval branch. -/
theorem encodeDF_ci_isErr (df : DF) (t : TArg) (se? : Option Grid)
    (cip : Grid × Grid) (ffmt : FloatFmt) (md : Bool)
    (bonus : Option Bonus) (ph : Bool)
    (hsrc : ∃ src, resolveSrcCI df t se? = .ok src ∧ SrcGood src)
    (h1 : gridNumB cip.1 = Bool.true) (h2 : gridNumB cip.2 = Bool.true)
    (htot : ∀ b, bonus = some b → ∀ i ∈ df.grid.index,
      (b.find i).isSome = Bool.true) :
    isErrB (encodeDF df t se? (some cip) ffmt bonus md ph)
      = df.grid.index.any (shapeAt df.levels bonus) := by
  obtain ⟨src, hres, hgood⟩ := hsrc
  have e1 : encodeDF df t se? (some cip) ffmt bonus md ph
      = (resolveSrcCI df t se?).bind (fun src =>
          (rowsFold df.levels (ciRowBody df cip src ffmt md bonus)
            (List.replicate df.levels "") df.grid.index).bind (fun rows =>
            Except.ok ((if ph then column_heading df else "") ++ rows))) := by
    cases t <;> cases se? <;> rfl
  rw [e1, hres, bindOk, isErrB_bind_ok, rowsFold_isErr]
  exact any_congr _ _ _ (fun i hi =>
    ciRowBody_isErr df cip src ffmt md bonus i hgood h1 h2
      (fun b hb => htot b hb i hi))

/-- Error status of the explicit-t-statistics branch with a numeric
grid. -/
theorem encodeDF_t_isErr (df : DF) (g : Grid) (ffmt : FloatFmt)
    (md : Bool) (bonus : Option Bonus) (ph : Bool)
    (hg : gridNumB g = Bool.true) :
    isErrB (encodeDF df (.grid g) Option.none Option.none ffmt bonus md ph)
      = Bool.false := by
  have e1 : encodeDF df (.grid g) Option.none Option.none ffmt bonus md ph
      = (rowsFold df.levels (tRowBody df (.grid g) ffmt md)
          (List.replicate df.levels "") df.grid.index).map
          ((if ph then column_heading df else "") ++ ·) := rfl
  rw [e1, isErrB_map, rowsFold_isErr]
  refine List.any_eq_false.mpr (fun i _ => ?_)
  obtain ⟨s, hs⟩ := pointCellsE_ok df (.grid g) ffmt md i hg
  have e2 : tRowBody df (.grid g) ffmt md i = .ok (s ++ "|\n") := by
    show (pointCellsE df (.grid g) ffmt md i).bind _ = _
    rw [hs]
    rfl
  rw [e2]
  simp [isErrB]

/-- C4 fails on the code: with a t-statistics grid holding a non-numeric
cell, encode raises `TypeError` even though no bonus-stats grid is
supplied (so the ShapeError case does not apply); conversely an
oversized bonus-stats grid passed without a standard-error or
confidence-interval overlay is silently ignored and encode returns a
string. -/
theorem c4_raise_counterexample :
    encodeDF exDF (.grid exTBad) Option.none Option.none ⟨5, 3⟩
        Option.none Bool.true Bool.true = .error .typeError
    ∧ encodeDF exDF .none Option.none Option.none ⟨5, 3⟩
        (some exBonusBig) Bool.true Bool.true
      = .ok "|  | A|   B  |\n|-\n| row1  | \\(1.000\\) | \\(3.000\\) |\n| row2  | \\(2.000\\) | \\(4.000\\) |\n" :=
  ⟨by decide, by decide⟩

/-- C4 amended: under the amended preconditions (numeric overlay grids,
`tdf=False` only together with an annotation grid, standard-error columns
present in the primary, primary cells numeric where the derivation
divides them, and a bonus-stats entry for every row), encode raises if
and only if a standard-error or confidence-interval overlay is active and
the bonus-stats grid supplies more values than index levels for some
row. -/
theorem c4_raise_iff_amended (df : DF) (tdf : TArg) (sedf : Option Grid)
    (ci : Option (Grid × Grid)) (ffmt : FloatFmt) (bonus : Option Bonus)
    (md ph : Bool)
    (h : wellFormedArgs df tdf sedf ci bonus = Bool.true) :
    isErrB (encodeDF df tdf sedf ci ffmt bonus md ph)
      = shapeErr df sedf ci bonus := by
  simp only [wellFormedArgs, Bool.and_eq_true] at h
  obtain ⟨⟨⟨⟨h1, h2⟩, h3⟩, h4⟩, h5⟩ := h
  have htot : ∀ b, bonus = some b → ∀ i ∈ df.grid.index,
      (b.find i).isSome = Bool.true := by
    intro b hb i hi
    subst hb
    have h5b : df.grid.index.all (fun i => (b.find i).isSome)
        = Bool.true := h5
    exact List.all_eq_true.mp h5b i hi
  cases tdf with
  | none =>
      cases sedf with
      | none =>
          cases ci with
          | none => rfl
          | some cip =>
              have hc : gridNumB cip.1 = Bool.true
                  ∧ gridNumB cip.2 = Bool.true := by
                simpa [Bool.and_eq_true] using h4
              rw [encodeDF_ci_isErr df .none Option.none cip ffmt md bonus ph
                ⟨.noStars, rfl, trivial⟩ hc.1 hc.2 htot]
              simp [shapeErr]
      | some se =>
          have hsub : se.columns.all (fun c => c ∈ df.grid.columns)
              = Bool.true ∧ gridNumB se = Bool.true := by
            simpa [Bool.and_eq_true] using h2
          have hdfn : df.grid.vals.all (fun e =>
              !(e.1.1 ∈ se.columns) || !e.2.isStr) = Bool.true := h3
          cases ci with
          | none =>
              rw [encodeDF_se_isErr df .none se ffmt md bonus ph
                (resolveSrcSE_good df .none se (fun g hg => nomatch hg)
                  (fun _ => ⟨hsub.1, hdfn, hsub.2⟩)) htot]
              simp [shapeErr]
          | some cip =>
              have hc : gridNumB cip.1 = Bool.true
                  ∧ gridNumB cip.2 = Bool.true := by
                simpa [Bool.and_eq_true] using h4
              rw [encodeDF_ci_isErr df .none (some se) cip ffmt md bonus ph
                (resolveSrcCI_good df .none (some se) (fun g hg => nomatch hg)
                  (fun se' _ hse' => by
                    injection hse' with hse2
                    subst hse2
                    exact ⟨hsub.1, hdfn, hsub.2⟩)) hc.1 hc.2 htot]
              simp [shapeErr]
  | false =>
      cases sedf with
      | none =>
          cases ci with
          | none => simp at h1
          | some cip =>
              have hc : gridNumB cip.1 = Bool.true
                  ∧ gridNumB cip.2 = Bool.true := by
                simpa [Bool.and_eq_true] using h4
              rw [encodeDF_ci_isErr df .false Option.none cip ffmt md bonus ph
                ⟨.noStars, rfl, trivial⟩ hc.1 hc.2 htot]
              simp [shapeErr]
      | some se =>
          cases ci with
          | none =>
              rw [encodeDF_se_isErr df .false se ffmt md bonus ph
                ⟨.noStars, rfl, trivial⟩ htot]
              simp [shapeErr]
          | some cip =>
              have hc : gridNumB cip.1 = Bool.true
                  ∧ gridNumB cip.2 = Bool.true := by
                simpa [Bool.and_eq_true] using h4
              rw [encodeDF_ci_isErr df .false (some se) cip ffmt md bonus ph
                ⟨.noStars, rfl, trivial⟩ hc.1 hc.2 htot]
              simp [shapeErr]
  | grid g =>
      have hgn : gridNumB g = Bool.true := h1
      cases sedf with
      | none =>
          cases ci with
          | none =>
              rw [encodeDF_t_isErr df g ffmt md bonus ph hgn]
              simp [shapeErr]
          | some cip =>
              have hc : gridNumB cip.1 = Bool.true
                  ∧ gridNumB cip.2 = Bool.true := by
                simpa [Bool.and_eq_true] using h4
              rw [encodeDF_ci_isErr df (.grid g) Option.none cip ffmt md bonus
                ph ⟨.grid g, rfl, hgn⟩ hc.1 hc.2 htot]
              simp [shapeErr]
      | some se =>
          cases ci with
          | none =>
              rw [encodeDF_se_isErr df (.grid g) se ffmt md bonus ph
                ⟨.grid g, rfl, hgn⟩ htot]
              simp [shapeErr]
          | some cip =>
              have hc : gridNumB cip.1 = Bool.true
                  ∧ gridNumB cip.2 = Bool.true := by
                simpa [Bool.and_eq_true] using h4
              rw [encodeDF_ci_isErr df (.grid g) (some se) cip ffmt md bonus
                ph ⟨.grid g, rfl, hgn⟩ hc.1 hc.2 htot]
              simp [shapeErr]

/-- C4 amended, applied: with `tdf=False`, the standard-error overlay and
an oversized bonus-stats grid, the precondition holds and encode fails
exactly as the shape condition predicts. -/
theorem c4_raise_iff_amended_witness :
    wellFormedArgs exDF .false (some exSe) Option.none (some exBonusBig)
        = Bool.true
    ∧ isErrB (encodeDF exDF .false (some exSe) Option.none ⟨5, 3⟩
        (some exBonusBig) Bool.true Bool.true)
      = shapeErr exDF (some exSe) Option.none (some exBonusBig) :=
  ⟨by decide, c4_raise_iff_amended exDF .false (some exSe) Option.none
    ⟨5, 3⟩ (some exBonusBig) Bool.true Bool.true (by decide)⟩

/-!  ### Round-trip analysis (C6)  -/

/-- The rendered body of a plain (delimiter-free, starless) cell, i.e.
what stands between the pipes of `format_entry`. -/
def bodyV (ffmt : FloatFmt) : Val → String
  | .missing => "---"
  | .num q => ffmt.render q
  | .str s => s

/-- What the tokenizer recovers from a plain cell: the body with the
format's width padding trimmed away. -/
def decodedV (ffmt : FloatFmt) : Val → String
  | .missing => "---"
  | .num q => formatFixed ffmt.prec q
  | .str s => s

/-- A token the round trip preserves: free of pipes and newlines, and
trim-invariant. -/
def cleanTok (s : String) : Bool :=
  !s.data.contains '|' && !s.data.contains '\n'
    && (trimChars s.data == s.data)

/-- Join character lists with a single separator character. -/
def sepJoin (c : Char) : List (List Char) → List Char
  | [] => []
  | [x] => x
  | x :: rest => x ++ c :: sepJoin c rest

/-- Newline-terminate and concatenate lines. -/
def joinNl : List (List Char) → List Char
  | [] => []
  | l :: rest => l ++ '\n' :: joinNl rest

/-- Splitting after a leading separator. -/
theorem splitOnChar_cons_self (c : Char) (y : List Char) :
    splitOnChar c (c :: y) = [] :: splitOnChar c y := by
  simp [splitOnChar]

/-- A separator-free list splits into itself. -/
theorem splitOnChar_no_sep (c : Char) :
    ∀ (l : List Char), c ∉ l → splitOnChar c l = [l]
  | [], _ => rfl
  | a :: rest, h => by
      have ha : ¬ a = c := fun hc => h (by simp [hc])
      have ih := splitOnChar_no_sep c rest (fun hc => h (by simp [hc]))
      simp [splitOnChar, ha, ih]

/-- Splitting peels off the first separator-free chunk. -/
theorem splitOnChar_sep_append (c : Char) :
    ∀ (l rest : List Char), c ∉ l →
      splitOnChar c (l ++ c :: rest) = l :: splitOnChar c rest
  | [], rest, _ => by simp [splitOnChar_cons_self]
  | a :: l, rest, h => by
      have ha : ¬ a = c := fun hc => h (by simp [hc])
      have ih := splitOnChar_sep_append c l rest (fun hc => h (by simp [hc]))
      show splitOnChar c (a :: (l ++ c :: rest)) = _
      simp only [splitOnChar, if_neg ha, ih]

/-- Splitting a separator-joined cell list recovers the cells (plus the
empty fragment after the final separator). -/
theorem splitOnChar_sepJoin (c : Char) :
    ∀ (cells : List (List Char)), cells ≠ [] →
      (∀ cl ∈ cells, c ∉ cl) →
      splitOnChar c (sepJoin c cells ++ [c]) = cells ++ [[]]
  | [], h, _ => absurd rfl h
  | [x], _, hcl => by
      have := splitOnChar_sep_append c x [] (hcl x (by simp))
      simpa [sepJoin] using this
  | x :: y :: rest, _, hcl => by
      have ih := splitOnChar_sepJoin c (y :: rest) (by simp)
        (fun cl hc => hcl cl (by simp at hc ⊢; tauto))
      show splitOnChar c ((x ++ c :: sepJoin c (y :: rest)) ++ [c]) = _
      rw [List.append_assoc, List.cons_append]
      rw [splitOnChar_sep_append c x _ (hcl x (by simp))]
      rw [ih]
      rfl

/-- Splitting newline-joined lines recovers the lines (plus the empty
fragment after the final newline). -/
theorem splitOnChar_joinNl :
    ∀ (ls : List (List Char)), (∀ l ∈ ls, '\n' ∉ l) →
      splitOnChar '\n' (joinNl ls) = ls ++ [[]]
  | [], _ => rfl
  | l :: rest, h => by
      have ih := splitOnChar_joinNl rest (fun x hx => h x (by simp [hx]))
      show splitOnChar '\n' (l ++ '\n' :: joinNl rest) = _
      rw [splitOnChar_sep_append _ _ _ (h l (by simp)), ih]
      rfl

/-- `dropWhile` is the identity when nothing at the front satisfies the
predicate — in fact when nothing in the list does. -/
theorem dropWhile_eq_self_of (p : Char → Bool) :
    ∀ (l : List Char), (∀ x ∈ l, p x = Bool.false) → l.dropWhile p = l
  | [], _ => rfl
  | a :: l, h => by
      rw [List.dropWhile_cons, if_neg (by rw [h a (by simp)]; simp)]

/-- Trimming ignores a leading space. -/
theorem trim_cons_space (l : List Char) :
    trimChars (' ' :: l) = trimChars l := by
  unfold trimChars
  rw [show (' ' :: l).dropWhile isSpaceChar = l.dropWhile isSpaceChar by
    rw [List.dropWhile_cons, if_pos (by decide)]]

/-- Trimming ignores a trailing space. -/
theorem trim_append_space (l : List Char) :
    trimChars (l ++ [' ']) = trimChars l := by
  unfold trimChars
  rw [List.dropWhile_append]
  by_cases h : (l.dropWhile isSpaceChar).isEmpty
  · rw [if_pos h]
    rw [List.isEmpty_iff] at h
    rw [h]
    rfl
  · rw [if_neg h]
    rw [List.reverse_append]
    show ((' ' :: (l.dropWhile isSpaceChar).reverse).dropWhile
      isSpaceChar).reverse = _
    rw [List.dropWhile_cons, if_pos (by decide)]

/-- Trimming a space-free list is the identity. -/
theorem trim_no_space (l : List Char)
    (h : ∀ x ∈ l, isSpaceChar x = Bool.false) : trimChars l = l := by
  unfold trimChars
  rw [dropWhile_eq_self_of _ l h,
    dropWhile_eq_self_of _ l.reverse (fun x hx => h x (by simpa using hx)),
    List.reverse_reverse]

/-- Trimming ignores any left-padding of spaces. -/
theorem trim_replicate_space (l : List Char) :
    ∀ (n : Nat), trimChars (List.replicate n ' ' ++ l) = trimChars l
  | 0 => rfl
  | n + 1 => by
      show trimChars (' ' :: (List.replicate n ' ' ++ l)) = _
      rw [trim_cons_space, trim_replicate_space l n]

/-- Modelled from the spec: the precision Python's shortest-round-trip
`str()` prints for an exactly representable float — the least number of
fractional digits (at least one) that renders the value exactly. -/
def minPrec (q : ℚ) : Nat :=
  (((List.range 17).map (· + 1)).find? (fun p => 10 ^ p % q.den = 0)).getD 17

/-- Modelled from the spec: Python's `str()` of a float value, the "string
form of the originals" the round-trip clause promises. -/
def pyFloatStr (q : ℚ) : String := formatFixed (minPrec q) q

/-- The running example table with its index level named `i`, so that the
decoder's `set_index` request is truthy. -/
def exDFi : DF := { levels := 1, names := ["i"], colLevels := 1, grid := exG }

/-- C6 fails on the code: for the running example (index named `i`)
encoded with the format `%5.3f`, no overlays, no stars and no math
delimiters, decoding the tokenized output with one header row does
recover the column names `A`, `B` and promote the index back, but the
cell values are the format-rendered strings (`1.000`), not the string
forms of the original values (`str(1.0) = "1.0"`). -/
theorem c6_roundtrip_counterexample :
    encodeDF exDFi .none Option.none Option.none ⟨5, 3⟩ Option.none
        Bool.false Bool.true
      = .ok "| i | A|   B  |\n|-\n| row1  | 1.000 | 3.000 |\n| row2  | 2.000 | 4.000 |\n"
    ∧ orgtbl_to_df
        (tokenize "| i | A|   B  |\n|-\n| row1  | 1.000 | 3.000 |\n| row2  | 2.000 | 4.000 |\n")
        1 (some "i")
      = .ok { cols := ["A", "B"]
              rows := [["1.000", "3.000"], ["2.000", "4.000"]]
              idx := some ("i", ["row1", "row2"]) }
    ∧ pyFloatStr 1 = "1.0"
    ∧ [["1.000", "3.000"], ["2.000", "4.000"]]
        ≠ [[pyFloatStr 1, pyFloatStr 3], [pyFloatStr 2, pyFloatStr 4]] := by
  refine ⟨by decide, by decide, by decide, by decide⟩



/-- A character the tokenizer passes through untouched: not a space, a
pipe, or a newline. -/
def tameChar (c : Char) : Bool :=
  !(c = ' ' : Bool) && !(c = '|' : Bool) && !(c = '\n' : Bool)

theorem digitChar_tame (d : Nat) : tameChar (digitChar d) = Bool.true := by
  match d with
  | 0 | 1 | 2 | 3 | 4 | 5 | 6 | 7 | 8 => rfl
  | _ + 9 => rfl

theorem natDigitsAux_tame :
    ∀ (fuel n : Nat), ∀ c ∈ natDigitsAux fuel n, tameChar c = Bool.true
  | 0, _, c, hc => absurd hc (by simp [natDigitsAux])
  | fuel + 1, n, c, hc => by
      unfold natDigitsAux at hc
      by_cases hn : n = 0
      · rw [if_pos hn] at hc; exact absurd hc (by simp)
      · rw [if_neg hn] at hc
        rcases List.mem_append.mp hc with h | h
        · exact natDigitsAux_tame fuel (n / 10) c h
        · rcases List.mem_singleton.mp h with rfl
          exact digitChar_tame _

theorem natToString_tame (n : Nat) :
    ∀ c ∈ (natToString n).data, tameChar c = Bool.true := by
  intro c hc
  unfold natToString at hc
  by_cases hn : n = 0
  · rw [if_pos hn] at hc
    rcases List.mem_singleton.mp hc with rfl; rfl
  · rw [if_neg hn] at hc
    exact natDigitsAux_tame _ _ c hc

theorem formatFixed_tame (p : Nat) (q : ℚ) :
    ∀ c ∈ (formatFixed p q).data, tameChar c = Bool.true := by
  intro c hc
  unfold formatFixed at hc
  simp only [show ∀ (s t : String), (s ++ t).data = s.data ++ t.data from fun _ _ => rfl,
    List.mem_append] at hc
  rcases hc with (h | h) | h
  · split at h
    · rcases List.mem_singleton.mp h with rfl; rfl
    · exact absurd h (by simp)
  · exact natToString_tame _ c h
  · split at h
    · exact absurd h (by simp)
    · rcases (by simpa using h :
          c = '.' ∨ (¬ p - (natToString ((2 * q.num.natAbs * 10 ^ p + q.den) / (2 * q.den) % 10 ^ p)).length = 0 ∧ c = '0')
            ∨ c ∈ (natToString ((2 * q.num.natAbs * 10 ^ p + q.den) / (2 * q.den) % 10 ^ p)).data)
        with rfl | ⟨_, rfl⟩ | h'
      · rfl
      · rfl
      · exact natToString_tame _ c h'

theorem data_append (s t : String) : (s ++ t).data = s.data ++ t.data := rfl

theorem tame_notMem (l : List Char) (h : ∀ x ∈ l, tameChar x = Bool.true)
    (c : Char) (hc : c = ' ' ∨ c = '|' ∨ c = '\n') : c ∉ l := by
  intro hmem
  have := h c hmem
  rcases hc with rfl | rfl | rfl <;> simp [tameChar] at this

theorem trim_of_tame (l : List Char)
    (h : ∀ x ∈ l, tameChar x = Bool.true) : trimChars l = l := by
  refine trim_no_space l (fun x hx => ?_)
  have := h x hx
  unfold tameChar at this
  unfold isSpaceChar
  rcases Bool.and_eq_true .. |>.mp this with ⟨h1, _⟩
  rcases Bool.and_eq_true .. |>.mp h1 with ⟨h2, _⟩
  simpa using h2

/-- str-cell cleanliness demanded of the round trip: missing and numeric
cells are always fine. -/
def strClean : Val → Bool
  | .str s => cleanTok s
  | _ => Bool.true

theorem cleanTok_spec (s : String) (h : cleanTok s = Bool.true) :
    '|' ∉ s.data ∧ '\n' ∉ s.data ∧ trimChars s.data = s.data := by
  unfold cleanTok at h
  rcases Bool.and_eq_true .. |>.mp h with ⟨h1, h3⟩
  rcases Bool.and_eq_true .. |>.mp h1 with ⟨hp, hn⟩
  refine ⟨by simpa using hp, by simpa using hn, by simpa using h3⟩

theorem bodyV_notMem (ffmt : FloatFmt) (v : Val) (h : strClean v = Bool.true)
    (c : Char) (hc : c = '|' ∨ c = '\n') : c ∉ (bodyV ffmt v).data := by
  cases v with
  | missing =>
      rcases hc with rfl | rfl
      · exact (by decide : ('|' : Char) ∉ ("---" : String).data)
      · exact (by decide : ('\n' : Char) ∉ ("---" : String).data)
  | num q =>
      show c ∉ (padLeft ffmt.width (formatFixed ffmt.prec q)).data
      unfold padLeft
      rw [data_append]
      intro hmem
      rcases List.mem_append.mp hmem with h' | h'
      · have := List.eq_of_mem_replicate (by simpa using h')
        rcases hc with rfl | rfl <;> simp at this
      · exact tame_notMem _ (formatFixed_tame _ _) c (Or.inr hc) h'
  | str s =>
      rcases cleanTok_spec s h with ⟨hp, hn, _⟩
      rcases hc with rfl | rfl
      · exact hp
      · exact hn

theorem trim_bodyCell (ffmt : FloatFmt) (v : Val) (h : strClean v = Bool.true) :
    trimChars (' ' :: (bodyV ffmt v).data ++ [' ']) = (decodedV ffmt v).data := by
  rw [show (' ' :: (bodyV ffmt v).data ++ [' '] : List Char)
      = ' ' :: ((bodyV ffmt v).data ++ [' ']) from rfl,
    trim_cons_space, trim_append_space]
  cases v with
  | missing => show trimChars ("---" : String).data = ("---" : String).data; decide
  | num q =>
      show trimChars (padLeft ffmt.width (formatFixed ffmt.prec q)).data
        = (formatFixed ffmt.prec q).data
      unfold padLeft
      rw [data_append,
        show (String.mk (List.replicate (ffmt.width - (formatFixed ffmt.prec q).length) ' ')).data
          = List.replicate (ffmt.width - (formatFixed ffmt.prec q).length) ' ' from rfl,
        trim_replicate_space, trim_of_tame _ (formatFixed_tame _ _)]
  | str s => exact (cleanTok_spec s h).2.2

/-- Each cell preceded by its own pipe. -/
def pipeCells : List (List Char) → List Char
  | [] => []
  | cl :: rest => '|' :: cl ++ pipeCells rest

theorem sepJoin_cons (c0 : List Char) :
    ∀ (cells : List (List Char)),
      sepJoin '|' (c0 :: cells) = c0 ++ pipeCells cells
  | [] => by simp [sepJoin, pipeCells]
  | c1 :: rest => by
      show c0 ++ '|' :: sepJoin '|' (c1 :: rest) = _
      rw [sepJoin_cons c1 rest]
      rfl

theorem format_entry_plain (v : Val) (ffmt : FloatFmt) :
    format_entry v "" Bool.false ffmt Bool.false
      = "| " ++ bodyV ffmt v ++ " " := by
  cases v with
  | missing => rfl
  | num q =>
      show "| " ++ (ffmt.render q ++ "") ++ " " = _
      rw [show ffmt.render q ++ "" = ffmt.render q from by
        show String.mk ((ffmt.render q).data ++ []) = ffmt.render q
        rw [List.append_nil]]
      rfl
  | str s => rfl

theorem strJoin_cells (ffmt : FloatFmt) :
    ∀ (bs : List Val),
      (strJoin (bs.map (fun b => "| " ++ bodyV ffmt b ++ " "))).data
        = pipeCells (bs.map (fun b => ' ' :: (bodyV ffmt b).data ++ [' ']))
  | [] => rfl
  | b :: rest => by
      show (("| " ++ bodyV ffmt b ++ " ") ++
        strJoin (rest.map (fun b => "| " ++ bodyV ffmt b ++ " "))).data = _
      rw [data_append, strJoin_cells ffmt rest]
      show (['|', ' '] ++ (bodyV ffmt b).data) ++ [' '] ++ _ = _
      simp [pipeCells]

theorem notMem_sepJoin (c : Char) (hc : ¬ c = '|') :
    ∀ (cells : List (List Char)), (∀ cl ∈ cells, c ∉ cl) →
      c ∉ sepJoin '|' cells
  | [], _ => by simp [sepJoin]
  | [x], h => by simpa [sepJoin] using h x (by simp)
  | x :: y :: rest, h => by
      show c ∉ x ++ '|' :: sepJoin '|' (y :: rest)
      intro hmem
      rcases List.mem_append.mp hmem with h' | h'
      · exact h x (by simp) h'
      · rcases List.mem_cons.mp h' with rfl | h'
        · exact hc rfl
        · exact notMem_sepJoin c hc (y :: rest)
            (fun cl hcl => h cl (by simp at hcl ⊢; tauto)) h'

theorem tokenizeLine_cells (cells : List (List Char)) (hne : cells ≠ [])
    (hp : ∀ cl ∈ cells, '|' ∉ cl) :
    tokenizeLine ('|' :: sepJoin '|' cells ++ ['|'])
      = cells.map (fun cl => String.mk (trimChars cl)) := by
  unfold tokenizeLine
  rw [show ('|' :: sepJoin '|' cells ++ ['|'] : List Char)
      = '|' :: (sepJoin '|' cells ++ ['|']) from rfl,
    splitOnChar_cons_self, splitOnChar_sepJoin '|' cells hne hp]
  rw [List.map_cons, List.drop_one, List.tail_cons, List.map_append]
  rw [List.map_cons, List.map_nil, List.dropLast_concat]

/-- The later header cells at the character level: three leading spaces
from the `|   ` separator, two trailing spaces on the last. -/
def colCellsTail : List String → List (List Char)
  | [] => []
  | [h] => [' ' :: ' ' :: ' ' :: (h.data ++ [' ', ' '])]
  | h :: rest => (' ' :: ' ' :: ' ' :: h.data) :: colCellsTail rest

/-- The header cells of the column labels. -/
def colCells : List String → List (List Char)
  | [] => []
  | [h] => [' ' :: (h.data ++ [' ', ' '])]
  | h :: rest => (' ' :: h.data) :: colCellsTail rest

theorem pipeCells_eq :
    ∀ (cells : List (List Char)), cells ≠ [] →
      pipeCells cells = '|' :: sepJoin '|' cells
  | [], h => absurd rfl h
  | c :: rest, _ => by rw [sepJoin_cons]; rfl

theorem colCellsTail_ne_nil (a : String) (rest : List String) :
    colCellsTail (a :: rest) ≠ [] := by
  cases rest <;> simp [colCellsTail]

theorem intercalate_heads_tail :
    ∀ (heads : List String), heads ≠ [] →
      ' ' :: ' ' :: ' ' :: ((strIntercalate "|   " heads).data ++ [' ', ' '])
        = sepJoin '|' (colCellsTail heads)
  | [], h => absurd rfl h
  | [a], _ => rfl
  | a :: b :: rest, _ => by
      show ' ' :: ' ' :: ' ' ::
        (((a ++ "|   ") ++ strIntercalate "|   " (b :: rest)).data ++ [' ', ' ']) = _
      rw [data_append, data_append]
      rw [show colCellsTail (a :: b :: rest)
          = (' ' :: ' ' :: ' ' :: a.data) :: colCellsTail (b :: rest) from rfl]
      rw [sepJoin_cons, pipeCells_eq _ (colCellsTail_ne_nil b rest)]
      rw [← intercalate_heads_tail (b :: rest) (by simp)]
      show ' ' :: ' ' :: ' ' ::
        ((a.data ++ ['|', ' ', ' ', ' ']) ++ (strIntercalate "|   " (b :: rest)).data
          ++ [' ', ' ']) = _
      simp

theorem colCells_ne_nil (a : String) (rest : List String) :
    colCells (a :: rest) ≠ [] := by
  cases rest <;> simp [colCells]

theorem colCells_ne_nil' {heads : List String} (h : heads ≠ []) :
    colCells heads ≠ [] := by
  cases heads with
  | nil => exact absurd rfl h
  | cons a rest => exact colCells_ne_nil a rest

theorem intercalate_heads :
    ∀ (heads : List String), heads ≠ [] →
      ' ' :: ((strIntercalate "|   " heads).data ++ [' ', ' '])
        = sepJoin '|' (colCells heads)
  | [], h => absurd rfl h
  | [a], _ => rfl
  | a :: b :: rest, _ => by
      show ' ' ::
        (((a ++ "|   ") ++ strIntercalate "|   " (b :: rest)).data ++ [' ', ' ']) = _
      rw [data_append, data_append]
      rw [show colCells (a :: b :: rest)
          = (' ' :: a.data) :: colCellsTail (b :: rest) from rfl]
      rw [sepJoin_cons, pipeCells_eq _ (colCellsTail_ne_nil b rest)]
      rw [← intercalate_heads_tail (b :: rest) (by simp)]
      show ' ' ::
        ((a.data ++ ['|', ' ', ' ', ' ']) ++ (strIntercalate "|   " (b :: rest)).data
          ++ [' ', ' ']) = _
      simp

/-- The header cells of a one-level table: the index-name cell then the
column cells. -/
def headerCells (nm : String) (heads : List String) : List (List Char) :=
  (' ' :: (nm.data ++ [' '])) :: colCells heads

/-- The header row at the character level. -/
def headerLine (nm : String) (heads : List String) : List Char :=
  '|' :: sepJoin '|' (headerCells nm heads) ++ ['|']

theorem column_heading_data (nm : String) (g : Grid)
    (hne : g.columns ≠ []) :
    (column_heading ⟨1, [nm], 1, g⟩).data
      = headerLine nm (g.columns.map (fun j => j.headD ""))
        ++ ['\n', '|', '-', '\n'] := by
  have hh : g.columns.map (fun j => j.headD "") ≠ [] := by
    simpa using hne
  show (("| " ++ strIntercalate " | " [nm] ++ " | "
      ++ strIntercalate "|   " (g.columns.map (fun c => c.headD ""))
      ++ "  |\n|-\n")).data = _
  rw [show strIntercalate " | " [nm] = nm from rfl]
  rw [data_append, data_append, data_append, data_append]
  unfold headerLine headerCells
  rw [sepJoin_cons, pipeCells_eq _ (colCells_ne_nil' hh)]
  rw [← intercalate_heads _ hh]
  simp

/-- The cells of a plain data row at the character level: the row key
(two trailing spaces) then one cell per column. -/
def rowCells (g : Grid) (ffmt : FloatFmt) (i : Key) : List (List Char) :=
  (' ' :: ((i.headD "").data ++ [' ', ' '])) ::
    g.columns.map (fun j =>
      ' ' :: ((bodyV ffmt ((g.get j i).getD .missing)).data ++ [' ']))

/-- A plain data row at the character level. -/
def rowLine (g : Grid) (ffmt : FloatFmt) (i : Key) : List Char :=
  '|' :: sepJoin '|' (rowCells g ffmt i) ++ ['|']

theorem row_data (nm : String) (g : Grid) (ffmt : FloatFmt)
    (lastidx i : Key) :
    (idxPrefix 1 lastidx i ++ plainRow ⟨1, [nm], 1, g⟩ ffmt Bool.false i).data
      = rowLine g ffmt i ++ ['\n'] := by
  show (("| " ++ i.headD "" ++ "  ") ++
    (strJoin (g.columns.map (fun j =>
      format_entry ((g.get j i).getD .missing) "" Bool.false ffmt Bool.false))
      ++ "|\n")).data = _
  simp only [format_entry_plain]
  rw [show (g.columns.map (fun j =>
      "| " ++ bodyV ffmt ((g.get j i).getD .missing) ++ " "))
    = (g.columns.map (fun j => (g.get j i).getD .missing)).map
        (fun b => "| " ++ bodyV ffmt b ++ " ") from by
    rw [List.map_map]
    rfl]
  rw [data_append, data_append, data_append, data_append, strJoin_cells]
  unfold rowLine rowCells
  rw [sepJoin_cons, List.map_map]
  simp only [show ("| " : String).data = ['|', ' '] from rfl,
    show ("  " : String).data = [' ', ' '] from rfl,
    show ("|\n" : String).data = ['|', '\n'] from rfl, Function.comp_def]
  simp

theorem plainRowsGo_data (nm : String) (g : Grid) (ffmt : FloatFmt) :
    ∀ (is : List Key) (lastidx : Key),
      (plainRowsGo ⟨1, [nm], 1, g⟩ ffmt Bool.false lastidx is).data
        = joinNl (is.map (fun i => rowLine g ffmt i))
  | [], _ => rfl
  | i :: rest, lastidx => by
      show (idxPrefix 1 lastidx i ++ plainRow ⟨1, [nm], 1, g⟩ ffmt Bool.false i
        ++ plainRowsGo ⟨1, [nm], 1, g⟩ ffmt Bool.false i rest).data = _
      rw [data_append, plainRowsGo_data nm g ffmt rest i, row_data nm g ffmt]
      show (rowLine g ffmt i ++ ['\n']) ++ joinNl (rest.map (fun i => rowLine g ffmt i))
        = joinNl ((rowLine g ffmt i) :: rest.map (fun i => rowLine g ffmt i))
      rw [show joinNl ((rowLine g ffmt i) :: rest.map (fun i => rowLine g ffmt i))
        = rowLine g ffmt i ++ '\n' :: joinNl (rest.map (fun i => rowLine g ffmt i)) from rfl]
      simp

theorem notMem_pad (c : Char) (l : List Char) (hc : c ∉ l)
    (hcsp : ¬ c = ' ') (a b : Nat) :
    c ∉ List.replicate a ' ' ++ (l ++ List.replicate b ' ') := by
  intro hmem
  rcases List.mem_append.mp hmem with h | h
  · exact hcsp (List.eq_of_mem_replicate h)
  · rcases List.mem_append.mp h with h | h
    · exact hc h
    · exact hcsp (List.eq_of_mem_replicate h)

theorem notMem_pad0 (c : Char) (l : List Char) (hc : c ∉ l)
    (hcsp : ¬ c = ' ') (a : Nat) :
    c ∉ List.replicate a ' ' ++ l := by
  intro hmem
  rcases List.mem_append.mp hmem with h | h
  · exact hcsp (List.eq_of_mem_replicate h)
  · exact hc h

theorem colCellsTail_notMem (c : Char) (hcsp : ¬ c = ' ') :
    ∀ (heads : List String), (∀ h ∈ heads, c ∉ h.data) →
      ∀ cl ∈ colCellsTail heads, c ∉ cl
  | [], _, cl, hcl => absurd hcl (by simp [colCellsTail])
  | [a], h, cl, hcl => by
      rcases List.mem_singleton.mp hcl with rfl
      exact notMem_pad c a.data (h a (by simp)) hcsp 3 2
  | a :: b :: rest, h, cl, hcl => by
      rcases List.mem_cons.mp hcl with rfl | hcl
      · exact notMem_pad0 c a.data (h a (by simp)) hcsp 3
      · exact colCellsTail_notMem c hcsp (b :: rest)
          (fun x hx => h x (by simp at hx ⊢; tauto)) cl hcl

theorem colCells_notMem (c : Char) (hcsp : ¬ c = ' ') :
    ∀ (heads : List String), (∀ h ∈ heads, c ∉ h.data) →
      ∀ cl ∈ colCells heads, c ∉ cl
  | [], _, cl, hcl => absurd hcl (by simp [colCells])
  | [a], h, cl, hcl => by
      rcases List.mem_singleton.mp hcl with rfl
      exact notMem_pad c a.data (h a (by simp)) hcsp 1 2
  | a :: b :: rest, h, cl, hcl => by
      rcases List.mem_cons.mp hcl with rfl | hcl
      · exact notMem_pad0 c a.data (h a (by simp)) hcsp 1
      · exact colCellsTail_notMem c hcsp (b :: rest)
          (fun x hx => h x (by simp at hx ⊢; tauto)) cl hcl

theorem trim_tail2 (s : String) (h : cleanTok s = Bool.true) :
    trimChars (s.data ++ [' ', ' ']) = s.data := by
  rw [show (s.data ++ [' ', ' '] : List Char) = (s.data ++ [' ']) ++ [' '] from by simp,
    trim_append_space, trim_append_space]
  exact (cleanTok_spec s h).2.2

theorem trim_head_cell (s : String) (h : cleanTok s = Bool.true) :
    trimChars (' ' :: (s.data ++ [' ', ' '])) = s.data := by
  rw [trim_cons_space]
  exact trim_tail2 s h

theorem colCellsTail_trim :
    ∀ (heads : List String), (∀ h ∈ heads, cleanTok h = Bool.true) →
      (colCellsTail heads).map (fun cl => String.mk (trimChars cl)) = heads
  | [], _ => rfl
  | [a], h => by
      show [String.mk (trimChars (' ' :: ' ' :: ' ' :: (a.data ++ [' ', ' '])))] = [a]
      rw [show (' ' :: ' ' :: ' ' :: (a.data ++ [' ', ' ']) : List Char)
          = List.replicate 3 ' ' ++ (a.data ++ [' ', ' ']) from rfl,
        trim_replicate_space, trim_tail2 a (h a (by simp))]
  | a :: b :: rest, h => by
      show String.mk (trimChars (' ' :: ' ' :: ' ' :: a.data)) ::
        (colCellsTail (b :: rest)).map (fun cl => String.mk (trimChars cl)) = _
      rw [show (' ' :: ' ' :: ' ' :: a.data : List Char)
          = List.replicate 3 ' ' ++ a.data from rfl,
        trim_replicate_space, (cleanTok_spec a (h a (by simp))).2.2,
        colCellsTail_trim (b :: rest) (fun x hx => h x (by simp at hx ⊢; tauto))]

theorem colCells_trim :
    ∀ (heads : List String), (∀ h ∈ heads, cleanTok h = Bool.true) →
      (colCells heads).map (fun cl => String.mk (trimChars cl)) = heads
  | [], _ => rfl
  | [a], h => by
      show [String.mk (trimChars (' ' :: (a.data ++ [' ', ' '])))] = [a]
      rw [trim_head_cell a (h a (by simp))]
  | a :: b :: rest, h => by
      show String.mk (trimChars (' ' :: a.data)) ::
        (colCellsTail (b :: rest)).map (fun cl => String.mk (trimChars cl)) = _
      rw [trim_cons_space, (cleanTok_spec a (h a (by simp))).2.2,
        colCellsTail_trim (b :: rest) (fun x hx => h x (by simp at hx ⊢; tauto))]

theorem tokenizeLine_header (nm : String) (heads : List String)
    (hnm : cleanTok nm = Bool.true)
    (hheads : ∀ h ∈ heads, cleanTok h = Bool.true) :
    tokenizeLine (headerLine nm heads) = nm :: heads := by
  unfold headerLine
  rw [tokenizeLine_cells (headerCells nm heads) (by simp [headerCells])
    (by
      intro cl hcl
      rcases List.mem_cons.mp hcl with rfl | hcl
      · exact notMem_pad '|' nm.data (cleanTok_spec nm hnm).1 (by decide) 1 1
      · exact colCells_notMem '|' (by decide) heads
          (fun h hh => (cleanTok_spec h (hheads h hh)).1) cl hcl)]
  unfold headerCells
  rw [List.map_cons, colCells_trim heads hheads,
    show trimChars (' ' :: (nm.data ++ [' '])) = nm.data from by
      rw [trim_cons_space, trim_append_space]
      exact (cleanTok_spec nm hnm).2.2]

theorem tokenizeLine_row (g : Grid) (ffmt : FloatFmt) (i : Key)
    (hk : cleanTok (i.headD "") = Bool.true)
    (hb : ∀ j ∈ g.columns, strClean ((g.get j i).getD .missing) = Bool.true) :
    tokenizeLine (rowLine g ffmt i)
      = (i.headD "") :: g.columns.map (fun j =>
          decodedV ffmt ((g.get j i).getD .missing)) := by
  unfold rowLine
  rw [tokenizeLine_cells (rowCells g ffmt i) (by simp [rowCells])
    (by
      intro cl hcl
      rcases List.mem_cons.mp hcl with rfl | hcl
      · exact notMem_pad '|' (i.headD "").data (cleanTok_spec _ hk).1 (by decide) 1 2
      · rcases List.mem_map.mp hcl with ⟨j, hj, rfl⟩
        exact notMem_pad '|' (bodyV ffmt ((g.get j i).getD .missing)).data
          (bodyV_notMem ffmt _ (hb j hj) '|' (Or.inl rfl)) (by decide) 1 1)]
  unfold rowCells
  rw [List.map_cons, trim_head_cell _ hk, List.map_map]
  refine congrArg _ (List.map_congr_left ?_)
  intro j hj
  show String.mk (trimChars (' ' :: ((bodyV ffmt ((g.get j i).getD .missing)).data ++ [' ']))) = _
  rw [show (' ' :: ((bodyV ffmt ((g.get j i).getD .missing)).data ++ [' ']) : List Char)
      = ' ' :: (bodyV ffmt ((g.get j i).getD .missing)).data ++ [' '] from rfl,
    trim_bodyCell ffmt _ (hb j hj)]

theorem lineOK_headerLine (nm : String) (heads : List String) :
    (!(headerLine nm heads).isEmpty && !isRuleLine (headerLine nm heads))
      = Bool.true := by
  unfold headerLine headerCells
  rw [sepJoin_cons]
  rfl

theorem lineOK_rowLine (g : Grid) (ffmt : FloatFmt) (i : Key) :
    (!(rowLine g ffmt i).isEmpty && !isRuleLine (rowLine g ffmt i))
      = Bool.true := by
  unfold rowLine rowCells
  rw [sepJoin_cons]
  rfl

theorem notMem_nl_headerLine (nm : String) (heads : List String)
    (hnm : cleanTok nm = Bool.true)
    (hheads : ∀ h ∈ heads, cleanTok h = Bool.true) :
    '\n' ∉ headerLine nm heads := by
  unfold headerLine
  intro hmem
  rcases List.mem_cons.mp hmem with h | h
  · exact absurd h (by decide)
  rcases List.mem_append.mp h with h | h
  · refine notMem_sepJoin '\n' (by decide) _ ?_ h
    intro cl hcl
    rcases List.mem_cons.mp hcl with rfl | hcl
    · exact notMem_pad '\n' nm.data (cleanTok_spec nm hnm).2.1 (by decide) 1 1
    · exact colCells_notMem '\n' (by decide) heads
        (fun x hx => (cleanTok_spec x (hheads x hx)).2.1) cl hcl
  · exact absurd h (by decide)

theorem notMem_nl_rowLine (g : Grid) (ffmt : FloatFmt) (i : Key)
    (hk : cleanTok (i.headD "") = Bool.true)
    (hb : ∀ j ∈ g.columns, strClean ((g.get j i).getD .missing) = Bool.true) :
    '\n' ∉ rowLine g ffmt i := by
  unfold rowLine
  intro hmem
  rcases List.mem_cons.mp hmem with h | h
  · exact absurd h (by decide)
  rcases List.mem_append.mp h with h | h
  · refine notMem_sepJoin '\n' (by decide) _ ?_ h
    intro cl hcl
    rcases List.mem_cons.mp hcl with rfl | hcl
    · exact notMem_pad '\n' (i.headD "").data (cleanTok_spec _ hk).2.1 (by decide) 1 2
    · rcases List.mem_map.mp hcl with ⟨j, hj, rfl⟩
      exact notMem_pad '\n' (bodyV ffmt ((g.get j i).getD .missing)).data
        (bodyV_notMem ffmt _ (hb j hj) '\n' (Or.inr rfl)) (by decide) 1 1
  · exact absurd h (by decide)

theorem tokenize_out (nm : String) (g : Grid) (ffmt : FloatFmt)
    (hne : g.columns ≠ [])
    (hnm : cleanTok nm = Bool.true)
    (hheads : ∀ j ∈ g.columns, cleanTok (j.headD "") = Bool.true)
    (hkeys : ∀ i ∈ g.index, cleanTok (i.headD "") = Bool.true)
    (hstr : ∀ i ∈ g.index, ∀ j ∈ g.columns,
      strClean ((g.get j i).getD .missing) = Bool.true) :
    tokenize (column_heading ⟨1, [nm], 1, g⟩
        ++ plainRows ⟨1, [nm], 1, g⟩ ffmt Bool.false)
      = (nm :: g.columns.map (fun j => j.headD ""))
        :: g.index.map (fun i => (i.headD "")
            :: g.columns.map (fun j =>
              decodedV ffmt ((g.get j i).getD .missing))) := by
  have hheads' : ∀ h ∈ g.columns.map (fun j => j.headD ""), cleanTok h = Bool.true := by
    intro h hh
    rcases List.mem_map.mp hh with ⟨j, hj, rfl⟩
    exact hheads j hj
  unfold tokenize
  rw [show (column_heading ⟨1, [nm], 1, g⟩
        ++ plainRows ⟨1, [nm], 1, g⟩ ffmt Bool.false).toList
      = (column_heading ⟨1, [nm], 1, g⟩).data
        ++ (plainRows ⟨1, [nm], 1, g⟩ ffmt Bool.false).data from rfl]
  rw [column_heading_data nm g hne]
  rw [show (plainRows ⟨1, [nm], 1, g⟩ ffmt Bool.false).data
      = joinNl (g.index.map (fun i => rowLine g ffmt i)) from
    plainRowsGo_data nm g ffmt g.index _]
  rw [show (headerLine nm (g.columns.map (fun j => j.headD ""))
        ++ ['\n', '|', '-', '\n'])
        ++ joinNl (g.index.map (fun i => rowLine g ffmt i))
      = joinNl (headerLine nm (g.columns.map (fun j => j.headD ""))
          :: ['|', '-'] :: g.index.map (fun i => rowLine g ffmt i)) from by
    rw [List.append_assoc]
    rfl]
  rw [splitOnChar_joinNl _ (by
    intro l hl
    rcases List.mem_cons.mp hl with rfl | hl
    · exact notMem_nl_headerLine nm _ hnm hheads'
    rcases List.mem_cons.mp hl with rfl | hl
    · decide
    · rcases List.mem_map.mp hl with ⟨i, hi, rfl⟩
      exact notMem_nl_rowLine g ffmt i (hkeys i hi) (hstr i hi))]
  rw [show (headerLine nm (g.columns.map (fun j => j.headD ""))
        :: ['|', '-'] :: g.index.map (fun i => rowLine g ffmt i)) ++ [[]]
      = headerLine nm (g.columns.map (fun j => j.headD ""))
        :: ['|', '-'] :: (g.index.map (fun i => rowLine g ffmt i) ++ [[]]) from rfl]
  rw [@List.filter_cons_of_pos (List Char)
      (fun l => !l.isEmpty && !isRuleLine l)
      (headerLine nm (g.columns.map (fun j => j.headD "")))
      (['|', '-'] :: (g.index.map (fun i => rowLine g ffmt i) ++ [[]]))
      (lineOK_headerLine nm _),
    @List.filter_cons_of_neg (List Char)
      (fun l => !l.isEmpty && !isRuleLine l)
      ['|', '-']
      (g.index.map (fun i => rowLine g ffmt i) ++ [[]])
      (by decide),
    List.filter_append,
    List.filter_eq_self.mpr (by
      intro l hl
      rcases List.mem_map.mp hl with ⟨i, hi, rfl⟩
      exact lineOK_rowLine g ffmt i),
    show List.filter (fun l => !l.isEmpty && !isRuleLine l) [([] : List Char)]
      = [] from rfl]
  rw [List.append_nil, List.map_cons,
    tokenizeLine_header nm _ hnm hheads', List.map_map]
  refine congrArg _ (List.map_congr_left ?_)
  intro i hi
  exact tokenizeLine_row g ffmt i (hkeys i hi) (hstr i hi)

theorem orgtbl_to_df_promote (nm : String) (heads : List String)
    (rs : List (String × List String)) (hnm0 : ¬ nm = "") :
    orgtbl_to_df ((nm :: heads) :: rs.map (fun r => r.1 :: r.2)) 1 (some nm)
      = .ok { cols := heads
              rows := rs.map (fun r => r.2)
              idx := some (nm, rs.map (fun r => r.1)) } := by
  have hidx : idxOf? nm (nm :: heads) = some 0 := by
    unfold idxOf?
    rw [if_pos rfl]
  unfold orgtbl_to_df
  rw [if_neg (by decide)]
  show ((if nm = "" then
      Except.ok { cols := nm :: heads
                  rows := rs.map (fun r => r.1 :: r.2)
                  idx := Option.none }
    else match idxOf? nm (nm :: heads) with
      | Option.none => Except.error EncErr.keyError
      | some p => Except.ok
          { cols := (nm :: heads).eraseIdx p
            rows := (rs.map (fun r => r.1 :: r.2)).map (fun r => r.eraseIdx p)
            idx := some (nm,
              (rs.map (fun r => r.1 :: r.2)).map (fun r => r.getD p "")) }) :
      Except EncErr PDF)
    = _
  rw [if_neg hnm0]
  show ((match idxOf? nm (nm :: heads) with
      | Option.none => Except.error EncErr.keyError
      | some p => Except.ok
          { cols := (nm :: heads).eraseIdx p
            rows := (rs.map (fun r => r.1 :: r.2)).map (fun r => r.eraseIdx p)
            idx := some (nm,
              (rs.map (fun r => r.1 :: r.2)).map (fun r => r.getD p "")) }) :
      Except EncErr PDF)
    = _
  rw [hidx]
  show (Except.ok
      { cols := heads
        rows := (rs.map (fun r => r.1 :: r.2)).map (fun r => r.eraseIdx 0)
        idx := some (nm,
          (rs.map (fun r => r.1 :: r.2)).map (fun r => r.getD 0 "")) } :
      Except EncErr PDF) = _
  rw [List.map_map, List.map_map]
  rfl

/-- C6 (amended): for every single-header-level TableModel whose index
name, column labels, row keys and string cells are round-trip clean (no
pipes or newlines, trim-invariant) and whose column list is nonempty,
encoding with no overlays, no stars and no math delimiters never raises,
and decoding the tokenized output with one header row recovers the
column names exactly and every cell as the encoder's rendered-and-trimmed
form — the fixed-point format rendering for numeric values, the plain
string for string values, and the `---` sentinel for missing values —
with the index column promoted back under its original name (the index
name must be nonempty: `if index:` skips `set_index` for a falsy
request).  The cell values are NOT the Python string forms of the
original floats. -/
theorem c6_roundtrip_amended (nm : String) (g : Grid) (ffmt : FloatFmt)
    (hne : g.columns.isEmpty = Bool.false)
    (hnm0 : ¬ nm = "")
    (hnm : cleanTok nm = Bool.true)
    (hheads : g.columns.all (fun j => cleanTok (j.headD "")) = Bool.true)
    (hkeys : g.index.all (fun i => cleanTok (i.headD "")) = Bool.true)
    (hstr : g.index.all (fun i => g.columns.all (fun j =>
      strClean ((g.get j i).getD .missing))) = Bool.true) :
    ∃ out, encodeDF ⟨1, [nm], 1, g⟩ .none Option.none Option.none ffmt
        Option.none Bool.false Bool.true = .ok out
      ∧ orgtbl_to_df (tokenize out) 1 (some nm)
        = .ok { cols := g.columns.map (fun j => j.headD "")
                rows := g.index.map (fun i => g.columns.map (fun j =>
                  decodedV ffmt ((g.get j i).getD .missing)))
                idx := some (nm, g.index.map (fun i => i.headD "")) } := by
  have hne' : g.columns ≠ [] := by simpa using hne
  have hheads' : ∀ j ∈ g.columns, cleanTok (j.headD "") = Bool.true :=
    fun j hj => List.all_eq_true.mp hheads j hj
  have hkeys' : ∀ i ∈ g.index, cleanTok (i.headD "") = Bool.true :=
    fun i hi => List.all_eq_true.mp hkeys i hi
  have hstr' : ∀ i ∈ g.index, ∀ j ∈ g.columns,
      strClean ((g.get j i).getD .missing) = Bool.true :=
    fun i hi j hj => List.all_eq_true.mp (List.all_eq_true.mp hstr i hi) j hj
  refine ⟨_, encodeDF_plain ⟨1, [nm], 1, g⟩ ffmt Bool.false Bool.true, ?_⟩
  show orgtbl_to_df (tokenize (column_heading ⟨1, [nm], 1, g⟩
      ++ plainRows ⟨1, [nm], 1, g⟩ ffmt Bool.false)) 1 (some nm) = _
  rw [tokenize_out nm g ffmt hne' hnm hheads' hkeys' hstr']
  rw [show (g.index.map (fun i => (i.headD "") :: g.columns.map (fun j =>
        decodedV ffmt ((g.get j i).getD .missing))))
      = (g.index.map (fun i => ((i.headD ""), g.columns.map (fun j =>
          decodedV ffmt ((g.get j i).getD .missing))))).map (fun r => r.1 :: r.2) from by
    rw [List.map_map]
    rfl]
  rw [orgtbl_to_df_promote _ _ _ hnm0]
  rw [List.map_map, List.map_map]
  rfl

theorem c6_roundtrip_amended_witness :
    (exG.columns.isEmpty = Bool.false)
    ∧ ¬ ("i" : String) = ""
    ∧ cleanTok "i" = Bool.true
    ∧ exG.columns.all (fun j => cleanTok (j.headD "")) = Bool.true
    ∧ exG.index.all (fun i => cleanTok (i.headD "")) = Bool.true
    ∧ exG.index.all (fun i => exG.columns.all (fun j =>
        strClean ((exG.get j i).getD .missing))) = Bool.true
    ∧ ∃ out, encodeDF ⟨1, ["i"], 1, exG⟩ .none Option.none Option.none ⟨5, 3⟩
        Option.none Bool.false Bool.true = .ok out
      ∧ orgtbl_to_df (tokenize out) 1 (some "i")
        = .ok { cols := exG.columns.map (fun j => j.headD "")
                rows := exG.index.map (fun i => exG.columns.map (fun j =>
                  decodedV ⟨5, 3⟩ ((exG.get j i).getD .missing)))
                idx := some ("i", exG.index.map (fun i => i.headD "")) } :=
  ⟨by decide, by decide, by decide, by decide, by decide, by decide,
    c6_roundtrip_amended "i" exG ⟨5, 3⟩ (by decide) (by decide) (by decide)
      (by decide) (by decide) (by decide)⟩

end OrgTbl
